import Mathlib

/-!
Verification of the PRD-to-GitHub pipeline (`p2g-pipeline`).

This file gives a shallow embedding of the parts of the TypeScript source
relevant to the specification claims:

* the hierarchy data model (`src/types/schemas.ts`, `src/types`),
* zod structural validation (`CapabilitySchema` and friends),
* the AI decomposition orchestrator (`src/core/aiDecomposer.ts`),
* the CLI create command's two-phase loop and snapshot policy
  (`src/cli/commands/create.ts`),
* the PRD processor (`src/core/prdProcessor.ts`), including faithful
  translations of its JavaScript regular expressions,
* the GitHub issue generator (`src/github/issueGenerator.ts`), embedded as a
  deterministic interpreter that threads an explicit environment oracle for
  the fallibility of each remote call and emits a trace of external calls.

All definitions are executable; theorems about them follow at the end.
-/

deriving instance DecidableEq for Except

namespace P2G

/-! ## Hierarchy data model

Mirrors the entity types consumed by the pipeline (`src/types`).  Numeric
fields are JavaScript numbers; the program only ever uses integral values
for them, so they are modelled as `Int` (`estimatedHours`) and `Nat`
(`priority`, issue numbers).
-/

structure TechStack where
  frontend : Option (List String) := none
  backend : Option (List String) := none
  database : Option (List String) := none
  testing : Option (List String) := none
  deployment : Option (List String) := none
deriving DecidableEq, Inhabited

structure Deliverable where
  id : String
  capabilityId : String
  title : String
  description : String
  completionCriteria : List String
  dependencies : List String
  requiresReviewGate : Bool
deriving DecidableEq, Inhabited

structure ChecklistItem where
  id : String
  title : String
  description : Option String := none
deriving DecidableEq, Inhabited

structure Capability where
  id : String
  initiativeId : String
  title : String
  description : String
  inputOutputContract : String
  acceptanceCriteria : List String
  edgeConstraints : List String
  priority : Nat
  complexity : String
  estimatedHours : Int
  dependencies : List String
  aiContext : String
  labels : List String
  shouldCreateSubIssues : Bool
  deliverables : List Deliverable
  tasks : List ChecklistItem
deriving DecidableEq, Inhabited

structure Initiative where
  id : String
  title : String
  description : String
  objective : String
  successMetrics : List String
  priority : Nat
  capabilities : List Capability
deriving DecidableEq, Inhabited

structure InitiativeSummary where
  id : String
  title : String
  description : String
  objective : String
  successMetrics : List String
  priority : Nat
deriving DecidableEq, Inhabited

structure ProjectStructure where
  title : String
  description : String
  techStack : TechStack
  initiatives : List Initiative
deriving DecidableEq, Inhabited

structure ProjectOverview where
  title : String
  description : String
  techStack : TechStack
  initiatives : List InitiativeSummary
deriving DecidableEq, Inhabited

/-! ## zod structural validation (`src/types/schemas.ts`)

The zod schemas check, on an already well-typed value: non-emptiness of the
`title` / `description` / `objective` strings where `.min(1)` is declared,
the `priority` literal union `1|2|3|4|5`, the `complexity` enum
`['small','medium','large']`, and the `estimatedHours` bounds
`.min(0).max(40)`.  Fields with `.default(...)` or plain types impose no
constraint on a well-typed value.  Note that `CapabilitySchema` declares
`shouldCreateSubIssues: z.boolean().default(false)` and
`deliverables: z.array(DeliverableSchema).default([])` with no refinement
relating the two.
-/

def DeliverableSchema (d : Deliverable) : Bool :=
  d.title ≠ "" && d.description ≠ ""

def ChecklistItemSchema (t : ChecklistItem) : Bool :=
  t.title ≠ ""

def priorityLiteralOk (p : Nat) : Bool :=
  p == 1 || p == 2 || p == 3 || p == 4 || p == 5

def complexityEnumOk (c : String) : Bool :=
  c == "small" || c == "medium" || c == "large"

def CapabilitySchema (c : Capability) : Bool :=
  c.title ≠ "" && c.description ≠ "" &&
  priorityLiteralOk c.priority &&
  complexityEnumOk c.complexity &&
  (0 ≤ c.estimatedHours && c.estimatedHours ≤ 40) &&
  c.deliverables.all DeliverableSchema &&
  c.tasks.all ChecklistItemSchema

def InitiativeSummarySchema (i : InitiativeSummary) : Bool :=
  i.title ≠ "" && i.objective ≠ "" && priorityLiteralOk i.priority

def InitiativeSchema (i : Initiative) : Bool :=
  i.title ≠ "" && i.objective ≠ "" && priorityLiteralOk i.priority &&
  i.capabilities.all CapabilitySchema &&
  decide (i.capabilities ≠ [])

def ProjectOverviewSchema (o : ProjectOverview) : Bool :=
  o.title ≠ "" && o.description ≠ "" &&
  o.initiatives.all InitiativeSummarySchema &&
  decide (o.initiatives ≠ [])

def ProjectStructureSchema (p : ProjectStructure) : Bool :=
  p.title ≠ "" && p.description ≠ "" &&
  p.initiatives.all InitiativeSchema &&
  decide (p.initiatives ≠ [])

/-! ## AI decomposer (`src/core/aiDecomposer.ts`)

The Anthropic client is an external collaborator: a call to
`client.messages.create` is modelled by its observable result, a stop
reason together with the first content block.  Everything the decomposer
does *after* the remote call is embedded faithfully.  The composite
"extract JSON, `JSON.parse`, validate against the zod schema" step is kept
as a function parameter `parseValidate`: the theorems about truncation
quantify over it, which is exactly the claim that truncation is detected
before any parsing of the content.
-/

inductive ContentBlock where
  | text (s : String)
  | nonText
deriving DecidableEq

structure AIResponse where
  stopReason : String
  content : ContentBlock
deriving DecidableEq

/-- Prefix of the truncation error message built in `AIDecomposer.decompose`
(lines 46-52 of `aiDecomposer.ts`), split at the `--two-phase` mention. -/
def truncMsgPre (maxTokens : Nat) : String :=
  "AI response was truncated due to insufficient output token limit.\n\n" ++
  "Current max_tokens: " ++ toString maxTokens ++ "\n" ++
  "Response was cut off before completion (stop_reason: max_tokens)\n\n" ++
  "Solutions:\n" ++
  "1. Use two-phase decomposition (RECOMMENDED for large PRDs):\n" ++
  "   Add "

/-- Tail of the truncation error message (lines 52-56). -/
def truncMsgPost : String :=
  " flag to your command\n\n" ++
  "2. Increase the output limit by adding to your .env file:\n" ++
  "   ANTHROPIC_MAX_TOKENS=8192\n\n" ++
  "3. Simplify your PRD to reduce the response size\n\n" ++
  "4. Split your PRD into smaller documents and process separately"

/-- The full truncation message thrown by `AIDecomposer.decompose` when
`response.stop_reason === 'max_tokens'`. -/
def truncationMessage (maxTokens : Nat) : String :=
  truncMsgPre maxTokens ++ "--two-phase" ++ truncMsgPost

/-- `AIDecomposer.decompose` (lines 26-83): after the remote call, check the
stop reason, then the content type, then extract/parse/validate.  An
`AIDecomposerError` is rethrown unchanged by the catch clause (it is neither
an `Anthropic.APIError` nor a `SyntaxError`), so it is the function's
result. -/
def decompose (parseValidate : String → Except String ProjectStructure)
    (maxTokens : Nat) (resp : AIResponse) : Except String ProjectStructure :=
  if resp.stopReason = "max_tokens" then
    .error (truncationMessage maxTokens)
  else
    match resp.content with
    | .nonText => .error "Unexpected response type from Claude API"
    | .text t => parseValidate t

/-- `AIDecomposer.decomposeInitiativeCapabilities` as observed by the
two-phase loops: one remote generation per initiative summary, producing
validated capabilities or an error message.  The loops only depend on this
observable behaviour, so the per-initiative generation is a function
parameter of kind `InitiativeSummary → Except String (List Capability)`. -/
def attachCapabilities (s : InitiativeSummary) (caps : List Capability) : Initiative :=
  { id := s.id, title := s.title, description := s.description,
    objective := s.objective, successMetrics := s.successMetrics,
    priority := s.priority, capabilities := caps }

/-- `AIDecomposer.decomposeTwoPhase`, phase-2 loop (lines 200-207 of
`aiDecomposer.ts`): a plain `for` loop with no `try`/`catch` around the
per-initiative generation, so the first error propagates out of the whole
method. -/
def decomposeTwoPhaseLoop (gen : InitiativeSummary → Except String (List Capability)) :
    List InitiativeSummary → Except String (List Initiative)
  | [] => .ok []
  | s :: rest =>
    match gen s with
    | .error e => .error e
    | .ok caps =>
      match decomposeTwoPhaseLoop gen rest with
      | .error e => .error e
      | .ok inits => .ok (attachCapabilities s caps :: inits)

/-- `AIDecomposer.decomposeTwoPhase` (lines 190-229): phase 1 produces the
overview, phase 2 runs the loop above, then the project structure is
assembled from the overview header and the initiative list. -/
def decomposeTwoPhase (phase1 : Except String ProjectOverview)
    (gen : InitiativeSummary → Except String (List Capability)) :
    Except String ProjectStructure :=
  match phase1 with
  | .error e => .error e
  | .ok overview =>
    match decomposeTwoPhaseLoop gen overview.initiatives with
    | .error e => .error e
    | .ok inits =>
      .ok { title := overview.title, description := overview.description,
            techStack := overview.techStack, initiatives := inits }

/-! ## CLI create command, two-phase path (`src/cli/commands/create.ts`)

`handleCreateCommand` contains its own phase-2 loop (lines 108-135), which
unlike `decomposeTwoPhase` wraps each per-initiative generation in
`try`/`catch`: a failure is recorded as `{initiative, error}` in
`failedInitiatives` and the loop continues.
-/

/-- One failure record as persisted in the snapshot files:
`{initiativeId, initiativeTitle, error}` (lines 145-149 / 179-183). -/
structure FailedInitiative where
  initiativeId : String
  initiativeTitle : String
  error : String
deriving DecidableEq, Inhabited

/-- The phase-2 loop of `handleCreateCommand`: returns the successfully
generated initiatives and the failure list, both in traversal order. -/
def cliPhase2Loop (gen : InitiativeSummary → Except String (List Capability)) :
    List InitiativeSummary → List Initiative × List (InitiativeSummary × String)
  | [] => ([], [])
  | s :: rest =>
    let (inits, fails) := cliPhase2Loop gen rest
    match gen s with
    | .ok caps => (attachCapabilities s caps :: inits, fails)
    | .error e => (inits, (s, e) :: fails)

/-- The snapshot-file contents written by `handleCreateCommand`, modelled
structurally (the TypeScript serialises these objects with
`JSON.stringify`). -/
inductive SnapshotContent where
  | allFailed (timestamp : String) (prdFile : String) (overview : ProjectOverview)
      (failedInitiatives : List FailedInitiative)
  | someFailed (timestamp : String) (prdFile : String) (projectStructure : ProjectStructure)
      (failedInitiatives : List FailedInitiative)
deriving DecidableEq

/-- `failedInitiatives.map(f => ({initiativeId: ..., initiativeTitle: ...,
error: ...}))` from lines 145-149 and 179-183. -/
def toFailureRecords (fails : List (InitiativeSummary × String)) : List FailedInitiative :=
  fails.map fun f => { initiativeId := f.1.id, initiativeTitle := f.1.title, error := f.2 }

/-- Post-phase-2 policy of `handleCreateCommand` (lines 137-197): given the
loop results, decide the run outcome and which snapshot file (path and
content) is written.  The wall-clock timestamp is an input. -/
def postPhase2 (timestamp prdFile : String) (overview : ProjectOverview)
    (inits : List Initiative) (fails : List (InitiativeSummary × String)) :
    Except String ProjectStructure × List (String × SnapshotContent) :=
  if inits = [] then
    (.error "All initiatives failed to generate capabilities",
     [(".p2g-failure.json",
       .allFailed timestamp prdFile overview (toFailureRecords fails))])
  else
    let projectStructure : ProjectStructure :=
      { title := overview.title, description := overview.description,
        techStack := overview.techStack, initiatives := inits }
    if fails = [] then
      (.ok projectStructure, [])
    else
      (.ok projectStructure,
       [(".p2g-partial.json",
         .someFailed timestamp prdFile projectStructure (toFailureRecords fails))])

/-- The two-phase path of `handleCreateCommand` from the end of phase 1 to
the decomposition result: run the resilient loop, then the snapshot
policy. -/
def cliTwoPhase (timestamp prdFile : String) (overview : ProjectOverview)
    (gen : InitiativeSummary → Except String (List Capability)) :
    Except String ProjectStructure × List (String × SnapshotContent) :=
  let (inits, fails) := cliPhase2Loop gen overview.initiatives
  postPhase2 timestamp prdFile overview inits fails

/-! ## PRD processor (`src/core/prdProcessor.ts`)

`processPRD` validates the file and extracts metadata with a handful of
JavaScript regular expressions.  Each regex is translated to a structurally
recursive matcher over `List Char` that reproduces the JS engine's
leftmost-match, ordered-alternation and greedy/lazy backtracking semantics;
each matcher is annotated with the pattern it implements.  JS `\s` is
modelled by its ASCII subset (the inputs are markdown text); string length
is code points (UTF-16 units in JS — identical on ASCII).
-/

/-- The ASCII part of the JS `\s` character class. -/
def isWs (c : Char) : Bool :=
  c = ' ' || c = '\t' || c = '\n' || c = '\r' || c = '\x0b' || c = '\x0c'

/-- JS `String.prototype.trim`: strip leading and trailing `\s` chars. -/
def jsTrim (s : String) : String :=
  String.mk (((s.toList.dropWhile isWs).reverse.dropWhile isWs).reverse)

/-- JS falsy-or-default: `value || dflt` for `value : string | null`. -/
def orFalsy (dflt : String) : Option String → String
  | none => dflt
  | some s => if s = "" then dflt else s

/-- Case-insensitive literal match: consumes `pat` (given lowercase) from
the front of `l`, returning the rest. -/
def matchCI : List Char → List Char → Option (List Char)
  | [], l => some l
  | _ :: _, [] => none
  | p :: ps, c :: cs => if p.toLower = c.toLower then matchCI ps cs else none

/-- Case-sensitive literal match (for the flagless split regex in
`parseTechList`). -/
def matchLit : List Char → List Char → Option (List Char)
  | [], l => some l
  | _ :: _, [] => none
  | p :: ps, c :: cs => if p = c then matchLit ps cs else none

/-- Greedy `cls+` followed by continuation `k`, with regex backtracking:
longer runs of `cls` are preferred, and on failure of `k` the run is
shortened (but stays non-empty). -/
def greedy1Then (cls : Char → Bool) (k : List Char → Option α) : List Char → Option α
  | [] => none
  | c :: rest =>
    if cls c then
      match greedy1Then cls k rest with
      | some r => some r
      | none => k rest
    else none

/-- Greedy `cls*` followed by continuation `k` (like `greedy1Then` but the
run may be empty). -/
def greedy0Then (cls : Char → Bool) (k : List Char → Option α) : List Char → Option α
  | [] => k []
  | c :: rest =>
    if cls c then
      match greedy0Then cls k rest with
      | some r => some r
      | none => k (c :: rest)
    else k (c :: rest)

/-- Lazy dotall `(.+?)` capture run until `stop` holds on the remainder:
the shortest non-empty capture whose remainder satisfies `stop`. -/
def lazyCapUntil (stop : List Char → Bool) : List Char → Option (List Char)
  | [] => none
  | c :: rest =>
    if stop rest then some [c]
    else
      match lazyCapUntil stop rest with
      | some cs => some (c :: cs)
      | none => none

/-- Lazy dotall `(.*?)` capture (possibly empty) until `stop` holds. -/
def lazyCap0Until (stop : List Char → Bool) : List Char → Option (List Char)
  | [] => if stop ([] : List Char) then some [] else none
  | c :: rest =>
    if stop (c :: rest) then some []
    else (lazyCap0Until stop rest).map (c :: ·)

/-- Lazy dotall `.+?` (uncaptured) followed by continuation `k`: try `k`
after one consumed char, extending one char at a time. -/
def lazy1DotThen (k : List Char → Option α) : List Char → Option α
  | [] => none
  | _ :: rest =>
    match k rest with
    | some r => some r
    | none => lazy1DotThen k rest

/-- Search driver for an unanchored regex: try `pat` at each position, left
to right (including the end-of-string position). -/
def searchPat (pat : List Char → Option α) : List Char → Option α
  | [] => pat []
  | c :: rest =>
    match pat (c :: rest) with
    | some r => some r
    | none => searchPat pat rest

/-- `(.+)$` in multiline mode at the current position: a non-empty greedy
run of non-newline chars (necessarily followed by `\n` or the end).  The
capture for `(.+?)(?:\n|$)` coincides with it, because `.` excludes `\n`
and the lazy capture must extend to the line end anyway. -/
def capToEol (l : List Char) : Option (List Char) :=
  let b := l.takeWhile (fun c => c ≠ '\n')
  if b.isEmpty then none else some b

/-- Tail `\s+(.+)$` of the `^#\s+(.+)$/m` pattern, with greedy
backtracking between `\s+` (which may cross line breaks) and `(.+)`. -/
def h1Tail : List Char → Option (List Char)
  | [] => none
  | c :: rest =>
    if isWs c then
      match h1Tail rest with
      | some cap => some cap
      | none => capToEol rest
    else none

/-- `#\s+(.+)$` tried at one position (which must be a line start). -/
def h1At : List Char → Option (List Char)
  | '#' :: rest => h1Tail rest
  | _ => none

/-- Multiline search for `/^#\s+(.+)$/m`: try `h1At` at each line start,
left to right. -/
def searchH1Aux (atStart : Bool) : List Char → Option (List Char)
  | [] => none
  | c :: rest =>
    if atStart then
      match h1At (c :: rest) with
      | some cap => some cap
      | none => searchH1Aux (c = '\n') rest
    else searchH1Aux (c = '\n') rest

def searchH1 (l : List Char) : Option (List Char) :=
  searchH1Aux true l

/-- `\s+Name[:\s]+(.+?)(?:\n|$)` — tail of the project-name pattern after
the `Project|Product` literal. -/
def nameTail : List Char → Option (List Char) :=
  greedy1Then isWs fun l =>
    match matchCI "name".toList l with
    | none => none
    | some l₂ => greedy1Then (fun c => c = ':' || isWs c) capToEol l₂

/-- `/(?:Project|Product)\s+Name[:\s]+(.+?)(?:\n|$)/i` at one position
(ordered alternation: `Project` is tried before `Product`). -/
def nameAt (l : List Char) : Option (List Char) :=
  match (matchCI "project".toList l).bind nameTail with
  | some cap => some cap
  | none => (matchCI "product".toList l).bind nameTail

/-- `/^\*\*|\*\*$/g` replacement with the empty string: remove a leading
and a trailing `**` (non-overlapping, as the JS global replace does). -/
def stripStars (s : String) : String :=
  let s₁ := if "**".isPrefixOf s then s.drop 2 else s
  if s₁.endsWith "**" then s₁.dropRight 2 else s₁

/-- `PRDProcessor.extractTitle` (lines 595-609): first H1 heading, else a
`Project Name` / `Product Name` line, else nothing. -/
def extractTitle (content : String) : Option String :=
  match searchH1 content.toList with
  | some cap => some (jsTrim (String.mk cap))
  | none =>
    match searchPat nameAt content.toList with
    | some cap => some (stripStars (jsTrim (String.mk cap)))
    | none => none

/-- Stop condition `(?:\n#|\n\n#|$)` of the description patterns. -/
def descStop : List Char → Bool
  | [] => true
  | '\n' :: '#' :: _ => true
  | '\n' :: '\n' :: '#' :: _ => true
  | _ => false

/-- Common tail `\s*\n+(.+?)(?:\n#|\n\n#|$)` of the three description
section patterns (dotall, so the capture may span lines). -/
def descTail : List Char → Option (List Char) :=
  greedy0Then isWs (greedy1Then (fun c => c = '\n') (lazyCapUntil descStop))

/-- `##\s+<keyword>` at one position, `kwM` matching the keyword. -/
def heading2At (kwM : List Char → Option (List Char)) : List Char → Option (List Char)
  | '#' :: '#' :: rest => greedy1Then isWs kwM rest
  | _ => none

/-- `###\s+<keyword>` at one position. -/
def heading3At (kwM : List Char → Option (List Char)) : List Char → Option (List Char)
  | '#' :: '#' :: '#' :: rest => greedy1Then isWs kwM rest
  | _ => none

/-- `Vision\s+Statement` keyword matcher (case-insensitive). -/
def visionStatementKw (l : List Char) : Option (List Char) :=
  (matchCI "vision".toList l).bind (greedy1Then isWs (matchCI "statement".toList))

/-- `Problem\s+Statement` keyword matcher (case-insensitive). -/
def problemStatementKw (l : List Char) : Option (List Char) :=
  (matchCI "problem".toList l).bind (greedy1Then isWs (matchCI "statement".toList))

/-- First description pattern
`/(?:##\s+Overview|##\s+Description|##\s+Vision\s+Statement)\s*\n+(.+?)(?:\n#|\n\n#|$)/is`
at one position: the three heading alternatives are tried in order, each
followed by the common tail. -/
def descPat1 (l : List Char) : Option (List Char) :=
  match (heading2At (matchCI "overview".toList) l).bind descTail with
  | some cap => some cap
  | none =>
    match (heading2At (matchCI "description".toList) l).bind descTail with
    | some cap => some cap
    | none => (heading2At visionStatementKw l).bind descTail

/-- Second pattern `/(?:###\s+Vision\s+Statement)\s*\n+(.+?)(?:\n#|\n\n#|$)/is`. -/
def descPat2 (l : List Char) : Option (List Char) :=
  (heading3At visionStatementKw l).bind descTail

/-- Third pattern `/(?:##\s+Problem\s+Statement)\s*\n+(.+?)(?:\n#|\n\n#|$)/is`. -/
def descPat3 (l : List Char) : Option (List Char) :=
  (heading2At problemStatementKw l).bind descTail

/-- `.replace(/\n+/g, ' ')`: collapse each run of newlines to one space. -/
def collapseNlAux (inRun : Bool) : List Char → List Char
  | [] => []
  | c :: rest =>
    if c = '\n' then
      if inRun then collapseNlAux true rest
      else ' ' :: collapseNlAux true rest
    else c :: collapseNlAux false rest

def collapseNl (s : String) : String :=
  String.mk (collapseNlAux false s.toList)

/-- `match[1].trim().replace(/\n+/g, ' ').substring(0, 500)` applied to a
section-pattern capture. -/
def descClean (cap : List Char) : String :=
  (collapseNl (jsTrim (String.mk cap))).take 500

/-- Stop condition `(?:\n\n|$)` of the fallback paragraph pattern. -/
def paraStop : List Char → Bool
  | [] => true
  | '\n' :: '\n' :: _ => true
  | _ => false

/-- Fallback paragraph pattern `/^#.+?\n+(.+?)(?:\n\n|$)/s`, anchored at
the start of the string (no `m` flag); the result is
`match[1].trim().substring(0, 500)` (no newline collapsing here). -/
def fallbackParagraph : List Char → Option String
  | '#' :: rest =>
    (lazy1DotThen (greedy1Then (fun c => c = '\n') (lazyCapUntil paraStop)) rest).map
      fun cap => (jsTrim (String.mk cap)).take 500
  | _ => none

/-- `PRDProcessor.extractDescription` (lines 611-633). -/
def extractDescription (content : String) : Option String :=
  match searchPat descPat1 content.toList with
  | some cap => some (descClean cap)
  | none =>
    match searchPat descPat2 content.toList with
    | some cap => some (descClean cap)
    | none =>
      match searchPat descPat3 content.toList with
      | some cap => some (descClean cap)
      | none => fallbackParagraph content.toList

/-- Stop condition `(?:\n##|\n#|$)` of the tech-stack section pattern
(`\n#` subsumes `\n##` as a stop position). -/
def tsStop : List Char → Bool
  | [] => true
  | '\n' :: '#' :: _ => true
  | _ => false

/-- Tail `.+?\n+(.*?)(?:\n##|\n#|$)` of the tech-stack section pattern. -/
def tsTail : List Char → Option (List Char) :=
  lazy1DotThen (greedy1Then (fun c => c = '\n') (lazyCap0Until tsStop))

/-- `Tech(?:nology)?\s+Stack` then the tail, with the greedy optional group
tried long-form first. -/
def tsKw (l : List Char) : Option (List Char) :=
  let next := fun l₂ => greedy1Then isWs (fun l₃ => (matchCI "stack".toList l₃).bind tsTail) l₂
  match (matchCI "technology".toList l).bind next with
  | some cap => some cap
  | none => (matchCI "tech".toList l).bind next

/-- `/(?:##|###)\s+Tech(?:nology)?\s+Stack.+?\n+(.*?)(?:\n##|\n#|$)/is` at
one position (`##` tried before `###`). -/
def techHeadAt (l : List Char) : Option (List Char) :=
  match l with
  | '#' :: '#' :: rest =>
    match greedy1Then isWs tsKw rest with
    | some cap => some cap
    | none =>
      match rest with
      | '#' :: rest₂ => greedy1Then isWs tsKw rest₂
      | _ => none
  | _ => none

/-- One separator of the `parseTechList` split regex
`/[,;]|\s+(?:and|with|using)\s+/` matched at the current position,
returning the remainder (flagless, hence case-sensitive words). -/
def sepMatch : List Char → Option (List Char)
  | [] => none
  | c :: rest =>
    if c = ',' || c = ';' then some rest
    else
      greedy1Then isWs
        (fun l =>
          match
            (match matchLit "and".toList l with
             | some l₂ => some l₂
             | none =>
               match matchLit "with".toList l with
               | some l₂ => some l₂
               | none => matchLit "using".toList l)
          with
          | none => none
          | some l₂ =>
            match l₂ with
            | d :: rest₂ => if isWs d then some (rest₂.dropWhile isWs) else none
            | [] => none)
        (c :: rest)

/-- `String.prototype.split` driven by `sepMatch`: scan left to right,
cutting at each separator occurrence.  The fuel argument (initialised to
`length + 1`) only bounds the recursion; a separator always consumes at
least one character, so the fuel never runs out on the actual argument. -/
def splitSepsAux : Nat → List Char → List Char → List (List Char)
  | 0, cur, l => [cur.reverse ++ l]
  | _ + 1, cur, [] => [cur.reverse]
  | f + 1, cur, c :: rest =>
    match sepMatch (c :: rest) with
    | some rest₂ => cur.reverse :: splitSepsAux f [] rest₂
    | none => splitSepsAux f (c :: cur) rest

/-- `PRDProcessor.parseTechList` (lines 673-680): strip `*` and `` ` ``
characters (the global `/\*\*|\*|`/` replace removes exactly those), split
on the separator regex, trim each part, keep parts with
`0 < length < 50`. -/
def parseTechList (text : String) : List String :=
  let cleaned := text.toList.filter fun c => c ≠ '*' && c ≠ '`'
  ((splitSepsAux (cleaned.length + 1) [] cleaned).map
      fun t => jsTrim (String.mk t)).filter
    fun t => 0 < t.length && t.length < 50

/-- One tech-stack line pattern `/(?:alt1|alt2|...)[:\s-]+(.+?)(?:\n|$)/i`
at one position, alternatives tried in order. -/
def techLineAt (alts : List (List Char)) (l : List Char) : Option (List Char) :=
  match alts with
  | [] => none
  | a :: moreAlts =>
    match (matchCI a l).bind (greedy1Then (fun c => c = ':' || isWs c || c = '-') capToEol) with
    | some cap => some cap
    | none => techLineAt moreAlts l

/-- `PRDProcessor.extractTechStack` (lines 635-671): find the tech-stack
section, then search its captured content with the four line patterns; a
field is assigned whenever its pattern matches (even if the parsed list is
empty), and the result is `none` only when no field was assigned.  No
pattern assigns `deployment`. -/
def extractTechStack (content : String) : Option TechStack :=
  match searchPat techHeadAt content.toList with
  | none => none
  | some cap =>
    let tsc := cap
    let fe := (searchPat (techLineAt ["frontend".toList, "client".toList, "ui".toList]) tsc).map
      fun c => parseTechList (String.mk c)
    let be := (searchPat (techLineAt ["backend".toList, "server".toList, "api".toList]) tsc).map
      fun c => parseTechList (String.mk c)
    let db := (searchPat (techLineAt ["database".toList, "db".toList, "storage".toList]) tsc).map
      fun c => parseTechList (String.mk c)
    let te := (searchPat (techLineAt ["testing".toList, "test".toList]) tsc).map
      fun c => parseTechList (String.mk c)
    if fe.isNone && be.isNone && db.isNone && te.isNone then none
    else some { frontend := fe, backend := be, database := db, testing := te, deployment := none }

structure PRDMetadata where
  title : String
  description : String
  techStack : Option TechStack
  rawContent : String
deriving DecidableEq

/-- `PRDProcessor.extractMetadata` (lines 583-593): JS `||` applies the
defaults both to `null` and to the empty string (both falsy). -/
def extractMetadata (content : String) : PRDMetadata :=
  { title := orFalsy "Untitled Project" (extractTitle content)
  , description := orFalsy "No description provided" (extractDescription content)
  , techStack := extractTechStack content
  , rawContent := content }

/-- The observable state of the PRD file: absent, present but unreadable
(with the underlying error message), or readable with its content. -/
inductive PRDFile where
  | missing
  | unreadable (errMsg : String)
  | readable (content : String)
deriving DecidableEq

/-- `PRDProcessor.processPRD` (lines 543-581).  The source guards
`!content || content.trim().length === 0`; both disjuncts are equivalent
to the trimmed content being empty (`!content` only catches `""`). -/
def processPRD (prdPath : String) (file : PRDFile) : Except String PRDMetadata :=
  match file with
  | .missing => .error ("PRD file not found: " ++ prdPath)
  | .unreadable msg => .error ("Failed to read PRD file: " ++ msg)
  | .readable content =>
    if jsTrim content = "" then .error "PRD file is empty"
    else if content.length < 100 then
      .error "PRD file is too short (minimum 100 characters)"
    else if content.length > 100000 then
      .error "PRD file is too large (maximum 100,000 characters)"
    else .ok (extractMetadata content)

/-! ## Issue generator (`src/github/issueGenerator.ts`)

`IssueGenerator.generateIssues` drives a sequence of remote GitHub calls.
The embedding is a deterministic interpreter: an `Oracle` decides, per
external call (indexed by a running call counter), whether the call fails
and with which error message; the interpreter threads a `GenSt` state (the
call counter, the next issue number the tracker will assign, the three
symbolic-id-to-issue-number maps of the generator instance, and a model of
the external repository's labels and issues) and emits a trace of `Event`s,
one per external call, plus `register` marks for the map writes and
`delayMs` marks for the `delay(...)` sleeps.
-/

inductive IKind where
  | initiative
  | capability
  | deliverable
deriving DecidableEq

inductive Event where
  /-- `octokit.issues.create`; `number` is the assigned issue number
  (meaningless, recorded as 0, when the call fails).  `parent` records
  which symbolic parent the generator is creating the item under. -/
  | createIssue (kind : IKind) (symId : String) (parent : Option String) (number : Nat) (ok : Bool)
  /-- `POST .../issues/{issue_number}/sub_issues`. -/
  | subIssue (parent child : Nat) (ok : Bool)
  /-- `octokit.issues.createLabel`. -/
  | createLabel (name : String) (ok : Bool)
  /-- `octokit.issues.addLabels`. -/
  | addLabels (issue : Nat) (labels : List String) (ok : Bool)
  /-- `octokit.issues.update` with a new body. -/
  | updateBody (issue : Nat) (ok : Bool)
  /-- `octokit.issues.get` inside `getIssueNodeId`. -/
  | getNode (issue : Nat) (ok : Bool)
  /-- The `createLinkedIssue(linkType: BLOCKS)` GraphQL mutation;
  `blocker` blocks `blocked`. -/
  | graphqlLink (blocker blocked : Nat) (ok : Bool)
  /-- `octokit.issues.createComment`. -/
  | comment (issue : Nat) (body : String) (ok : Bool)
  /-- A `Map.set` on one of the three id-to-issue-number maps (internal,
  not a remote call). -/
  | register (kind : IKind) (symId : String) (number : Nat)
  /-- `await delay(ms)` (internal, not a remote call). -/
  | delayMs (ms : Nat)
deriving DecidableEq

/-- Whether an event is a remote call against the external tracker. -/
def Event.isExternal : Event → Bool
  | .register _ _ _ => false
  | .delayMs _ => false
  | _ => true

/-- The externally visible state of one tracked issue. -/
structure ExtIssue where
  title : String
  body : String
  labels : List String
deriving DecidableEq

structure GenSt where
  callIdx : Nat
  nextIssue : Nat
  initiativeIdToIssueNumber : List (String × Nat)
  capabilityIdToIssueNumber : List (String × Nat)
  deliverableIdToIssueNumber : List (String × Nat)
  repoLabels : List String
  issues : List (Nat × ExtIssue)
deriving DecidableEq

/-- Decides the outcome of each external call: `fails i` tells whether the
i-th call (by `callIdx`) fails, and `errMsg i` is the transport error
message it fails with.  (The `error.status` field only influences which
log line is emitted, so it is not modelled.) -/
structure Oracle where
  fails : Nat → Bool
  errMsg : Nat → String

/-- Result record returned per created issue (`GitHubIssue` in
`src/types`; the opaque `html_url` is not modelled). -/
structure GitHubIssue where
  number : Nat
  title : String
  body : String
deriving DecidableEq

/-- `octokit.issues.create`: on success the tracker assigns the next issue
number and stores the issue. -/
def octokitCreate (o : Oracle) (s : GenSt) (kind : IKind) (symId : String)
    (parentSym : Option String) (title body : String) (labels : List String) :
    List Event × GenSt × Except String GitHubIssue :=
  let i := s.callIdx
  let s₁ := { s with callIdx := i + 1 }
  if o.fails i then
    ([.createIssue kind symId parentSym 0 false], s₁, .error (o.errMsg i))
  else
    let n := s₁.nextIssue
    ([.createIssue kind symId parentSym n true],
     { s₁ with nextIssue := n + 1,
               issues := (n, ⟨title, body, labels⟩) :: s₁.issues },
     .ok ⟨n, title, body⟩)

/-- The sub-issue REST call `POST .../issues/{parent}/sub_issues`. -/
def octokitSubIssue (o : Oracle) (s : GenSt) (parent child : Nat) :
    List Event × GenSt × Bool :=
  let i := s.callIdx
  let ok := !(o.fails i)
  ([.subIssue parent child ok], { s with callIdx := i + 1 }, ok)

/-- `octokit.issues.createLabel`: on success the label is added to the
repository. -/
def octokitCreateLabel (o : Oracle) (s : GenSt) (name : String) :
    List Event × GenSt × Bool :=
  let i := s.callIdx
  let ok := !(o.fails i)
  ([.createLabel name ok],
   { s with callIdx := i + 1,
            repoLabels := if ok then name :: s.repoLabels else s.repoLabels },
   ok)

/-- `octokit.issues.addLabels`: on success the labels are appended to the
target issue. -/
def octokitAddLabels (o : Oracle) (s : GenSt) (n : Nat) (ls : List String) :
    List Event × GenSt × Except String Unit :=
  let i := s.callIdx
  let s₁ := { s with callIdx := i + 1 }
  if o.fails i then
    ([.addLabels n ls false], s₁, .error (o.errMsg i))
  else
    ([.addLabels n ls true],
     { s₁ with issues := s₁.issues.map fun p =>
         if p.1 = n then (p.1, { p.2 with labels := p.2.labels ++ ls }) else p },
     .ok ())

/-- `octokit.issues.update` with a new body: on success the body of the
target issue is replaced. -/
def octokitUpdateBody (o : Oracle) (s : GenSt) (n : Nat) (body : String) :
    List Event × GenSt × Except String Unit :=
  let i := s.callIdx
  let s₁ := { s with callIdx := i + 1 }
  if o.fails i then
    ([.updateBody n false], s₁, .error (o.errMsg i))
  else
    ([.updateBody n true],
     { s₁ with issues := s₁.issues.map fun p =>
         if p.1 = n then (p.1, { p.2 with body := body }) else p },
     .ok ())

/-- `getIssueNodeId` (an `octokit.issues.get` call; the opaque node id is
not modelled, only the call and its outcome). -/
def octokitGetNode (o : Oracle) (s : GenSt) (n : Nat) : List Event × GenSt × Bool :=
  let i := s.callIdx
  let ok := !(o.fails i)
  ([.getNode n ok], { s with callIdx := i + 1 }, ok)

/-- The `createLinkedIssue` GraphQL mutation: `blocker` blocks `blocked`. -/
def octokitGraphql (o : Oracle) (s : GenSt) (blocker blocked : Nat) :
    List Event × GenSt × Bool :=
  let i := s.callIdx
  let ok := !(o.fails i)
  ([.graphqlLink blocker blocked ok], { s with callIdx := i + 1 }, ok)

/-- `octokit.issues.createComment`. -/
def octokitComment (o : Oracle) (s : GenSt) (n : Nat) (body : String) :
    List Event × GenSt × Except String Unit :=
  let i := s.callIdx
  let s₁ := { s with callIdx := i + 1 }
  if o.fails i then
    ([.comment n body false], s₁, .error (o.errMsg i))
  else
    ([.comment n body true], s₁, .ok ())

/-- JS `[...new Set(xs)]`: remove duplicates keeping first occurrences. -/
def jsSetDedupAux (seen : List String) : List String → List String
  | [] => []
  | x :: rest =>
    if seen.contains x then jsSetDedupAux seen rest
    else x :: jsSetDedupAux (x :: seen) rest

def jsSetDedup (xs : List String) : List String :=
  jsSetDedupAux [] xs

/-- Render `xs.forEach(x => body += pre + x + "\n")`. -/
def bulletLines (pre : String) (xs : List String) : String :=
  String.join (xs.map fun x => pre ++ x ++ "\n")

/-- Initiative issue body, built inline in `createInitiativeIssue`
(lines 94-120).  The literal `${'{issueNumber}'}` interpolation in the
source emits the literal text `{issueNumber}`. -/
def formatInitiativeBody (initiative : Initiative) : String :=
  let totalCapabilities := initiative.capabilities.length
  let totalDeliverables :=
    (initiative.capabilities.map fun c => c.deliverables.length).sum
  let totalChecklists :=
    (initiative.capabilities.map fun c => c.tasks.length).sum
  "## Objective (WHY)\n" ++ initiative.objective ++ "\n\n" ++
  "## Description\n" ++ initiative.description ++ "\n\n" ++
  (if initiative.successMetrics.length > 0 then
    "## Success Metrics\n" ++ bulletLines "- " initiative.successMetrics ++ "\n"
   else "") ++
  "## Capabilities\n" ++
  "This initiative contains " ++ toString totalCapabilities ++ " capabilities (L2)" ++
  (if totalDeliverables > 0 then
    " with " ++ toString totalDeliverables ++ " deliverables (L3)" else "") ++
  (if totalChecklists > 0 then
    " and " ++ toString totalChecklists ++ " checklist items" else "") ++
  ".\n\n" ++
  "**Sub-issues**: Capabilities will be linked below via GitHub sub-issues. " ++
  "If sub-issue API is unavailable, capabilities will use `parent:#\x7bissueNumber\x7d` labels and body links instead.\n\n" ++
  "---\n**Initiative ID**: " ++ initiative.id ++ " | **Priority**: " ++ toString initiative.priority

/-- `formatCapabilityBody` (lines 348-395). -/
def formatCapabilityBody (initiative : Initiative) (capability : Capability)
    (initiativeNumber : Nat) : String :=
  "## Initiative\n#" ++ toString initiativeNumber ++ " " ++ initiative.title ++ "\n\n" ++
  "## Description (WHAT)\n" ++ capability.description ++ "\n\n" ++
  (if capability.inputOutputContract ≠ "" then
    "## Input/Output Contract\n" ++ capability.inputOutputContract ++ "\n\n" else "") ++
  (if capability.acceptanceCriteria.length > 0 then
    "## Acceptance Criteria (Observable Outcomes)\n" ++
    bulletLines "- [ ] " capability.acceptanceCriteria ++ "\n"
   else "") ++
  (if capability.edgeConstraints.length > 0 then
    "## Edge Constraints\n" ++ bulletLines "- " capability.edgeConstraints ++ "\n"
   else "") ++
  (if !capability.shouldCreateSubIssues && capability.tasks.length > 0 then
    "## Implementation Checklist\n" ++
    bulletLines "- [ ] " (capability.tasks.map fun t => t.title) ++ "\n"
   else "") ++
  (if capability.shouldCreateSubIssues && capability.deliverables.length > 0 then
    "## Deliverables\nThis capability has " ++ toString capability.deliverables.length ++
    " deliverable sub-issues (L3) that will be linked below.\n\n"
   else "") ++
  (if capability.aiContext ≠ "" then
    "## AI Implementation Context\n" ++ capability.aiContext ++ "\n\n" else "") ++
  "---\n**Capability ID**: " ++ capability.id ++
  " | **Estimated Hours**: " ++ toString capability.estimatedHours ++
  " | **Complexity**: " ++ capability.complexity

/-- `formatDeliverableBody` (lines 397-417). -/
def formatDeliverableBody (capability : Capability) (deliverable : Deliverable)
    (capabilityNumber : Nat) : String :=
  "## Capability\n#" ++ toString capabilityNumber ++ " " ++ capability.title ++ "\n\n" ++
  "## Description\n" ++ deliverable.description ++ "\n\n" ++
  (if deliverable.completionCriteria.length > 0 then
    "## Completion Criteria\n" ++ bulletLines "- [ ] " deliverable.completionCriteria ++ "\n"
   else "") ++
  (if deliverable.requiresReviewGate then
    "## Review Gate\n⚠️ This deliverable requires review/approval before proceeding.\n\n"
   else "") ++
  "---\n**Deliverable ID**: " ++ deliverable.id

/-- The `**Parent Issue**: #<n> <title>` section prepended to a child's
body by fallback step 3. -/
def parentLinkSection (parentNumber : Nat) (parentTitle : String) : String :=
  "**Parent Issue**: #" ++ toString parentNumber ++ " " ++ parentTitle ++ "\n\n---\n\n"

/-- The `parent:#<n>` fallback label name. -/
def parentLabelName (parentNumber : Nat) : String :=
  "parent:#" ++ toString parentNumber

/-- `createParentLabel` (lines 329-346): a failed `createLabel` call is
absorbed entirely (a 422 "already exists" silently, any other failure with
only a log line). -/
def createParentLabel (o : Oracle) (s : GenSt) (parentNumber : Nat) :
    List Event × GenSt :=
  let (evs, s₁, _) := octokitCreateLabel o s (parentLabelName parentNumber)
  (evs, s₁)

/-- The three-step fallback of `createCapabilityIssue` /
`createDeliverableIssue` (lines 192-215 and 279-302), run when the native
sub-issue call failed: ensure the parent label (best-effort), add it to
the child, prepend the parent section to the child's body.  Failures of
steps 2 and 3 are *not* caught here; they propagate to the outer catch. -/
def applyParentFallback (o : Oracle) (s : GenSt) (parentNumber : Nat)
    (parentTitle : String) (child : GitHubIssue) :
    List Event × GenSt × Except String Unit :=
  let (evs₁, s₁) := createParentLabel o s parentNumber
  let (evs₂, s₂, r₂) := octokitAddLabels o s₁ child.number [parentLabelName parentNumber]
  match r₂ with
  | .error e => (evs₁ ++ evs₂, s₂, .error e)
  | .ok () =>
    let updatedBody := parentLinkSection parentNumber parentTitle ++ child.body
    let (evs₃, s₃, r₃) := octokitUpdateBody o s₂ child.number updatedBody
    (evs₁ ++ evs₂ ++ evs₃, s₃, r₃)

/-- `createInitiativeIssue` (lines 87-144): any failure is rethrown as an
`IssueGeneratorError` carrying the initiative's title and the underlying
message. -/
def createInitiativeIssue (o : Oracle) (s : GenSt) (initiative : Initiative) :
    List Event × GenSt × Except String GitHubIssue :=
  let labels := ["type:initiative", initiative.id]
  let (evs, s₁, r) := octokitCreate o s .initiative initiative.id none
    ("[INITIATIVE] " ++ initiative.title) (formatInitiativeBody initiative) labels
  match r with
  | .ok issue => (evs, s₁, .ok issue)
  | .error msg =>
    (evs, s₁, .error ("Failed to create initiative issue \"" ++ initiative.title ++ "\": " ++ msg))

/-- `createCapabilityIssue` (lines 146-231): create the issue, try the
native sub-issue link, and on its failure run the three-step fallback; any
error escaping the outer try (the create call itself, or fallback steps 2
and 3) becomes an `IssueGeneratorError` naming the capability. -/
def createCapabilityIssue (o : Oracle) (s : GenSt) (initiative : Initiative)
    (capability : Capability) (initiativeNumber : Nat) :
    List Event × GenSt × Except String GitHubIssue :=
  let labels := jsSetDedup
    (["type:capability", initiative.id, capability.complexity] ++ capability.labels)
  let wrap := fun (msg : String) =>
    "Failed to create capability issue \"" ++ capability.title ++ "\": " ++ msg
  let (evs₁, s₁, r₁) := octokitCreate o s .capability capability.id (some initiative.id)
    ("[CAPABILITY] " ++ capability.title)
    (formatCapabilityBody initiative capability initiativeNumber) labels
  match r₁ with
  | .error msg => (evs₁, s₁, .error (wrap msg))
  | .ok issue =>
    let (evs₂, s₂, subOk) := octokitSubIssue o s₁ initiativeNumber issue.number
    if subOk then (evs₁ ++ evs₂, s₂, .ok issue)
    else
      let (evs₃, s₃, r₃) := applyParentFallback o s₂ initiativeNumber initiative.title issue
      match r₃ with
      | .error msg => (evs₁ ++ evs₂ ++ evs₃, s₃, .error (wrap msg))
      | .ok () => (evs₁ ++ evs₂ ++ evs₃, s₃, .ok issue)

/-- `createDeliverableIssue` (lines 233-318), structurally identical to
`createCapabilityIssue` with the capability as parent. -/
def createDeliverableIssue (o : Oracle) (s : GenSt) (capability : Capability)
    (deliverable : Deliverable) (capabilityNumber : Nat) :
    List Event × GenSt × Except String GitHubIssue :=
  let labels := ["type:deliverable", capability.initiativeId]
  let wrap := fun (msg : String) =>
    "Failed to create deliverable issue \"" ++ deliverable.title ++ "\": " ++ msg
  let (evs₁, s₁, r₁) := octokitCreate o s .deliverable deliverable.id (some capability.id)
    ("[DELIVERABLE] " ++ deliverable.title)
    (formatDeliverableBody capability deliverable capabilityNumber) labels
  match r₁ with
  | .error msg => (evs₁, s₁, .error (wrap msg))
  | .ok issue =>
    let (evs₂, s₂, subOk) := octokitSubIssue o s₁ capabilityNumber issue.number
    if subOk then (evs₁ ++ evs₂, s₂, .ok issue)
    else
      let (evs₃, s₃, r₃) := applyParentFallback o s₂ capabilityNumber capability.title issue
      match r₃ with
      | .error msg => (evs₁ ++ evs₂ ++ evs₃, s₃, .error (wrap msg))
      | .ok () => (evs₁ ++ evs₂ ++ evs₃, s₃, .ok issue)

/-- First pass of `generateIssues` (lines 41-46): create one issue per
initiative, register its number, sleep 1000 ms.  A failure aborts the
pass. -/
def pass1 (o : Oracle) : List Initiative → GenSt → List Event × GenSt × Except String (List GitHubIssue)
  | [], s => ([], s, .ok [])
  | ini :: rest, s =>
    let (evs₁, s₁, r₁) := createInitiativeIssue o s ini
    match r₁ with
    | .error e => (evs₁, s₁, .error e)
    | .ok issue =>
      let s₂ := { s₁ with
        initiativeIdToIssueNumber := (ini.id, issue.number) :: s₁.initiativeIdToIssueNumber }
      let evs₂ := [Event.register .initiative ini.id issue.number, Event.delayMs 1000]
      let (evs₃, s₃, r₃) := pass1 o rest s₂
      match r₃ with
      | .error e => (evs₁ ++ evs₂ ++ evs₃, s₃, .error e)
      | .ok issues => (evs₁ ++ evs₂ ++ evs₃, s₃, .ok (issue :: issues))

/-- Third-pass inner loop (lines 60-66): one deliverable sub-issue per
deliverable of an expanding capability. -/
def delivLoop (o : Oracle) (capability : Capability) (capabilityNumber : Nat) :
    List Deliverable → GenSt → List Event × GenSt × Except String (List GitHubIssue)
  | [], s => ([], s, .ok [])
  | d :: rest, s =>
    let (evs₁, s₁, r₁) := createDeliverableIssue o s capability d capabilityNumber
    match r₁ with
    | .error e => (evs₁, s₁, .error e)
    | .ok issue =>
      let s₂ := { s₁ with
        deliverableIdToIssueNumber := (d.id, issue.number) :: s₁.deliverableIdToIssueNumber }
      let evs₂ := [Event.register .deliverable d.id issue.number, Event.delayMs 1000]
      let (evs₃, s₃, r₃) := delivLoop o capability capabilityNumber rest s₂
      match r₃ with
      | .error e => (evs₁ ++ evs₂ ++ evs₃, s₃, .error e)
      | .ok issues => (evs₁ ++ evs₂ ++ evs₃, s₃, .ok (issue :: issues))

/-- Second-pass inner loop (lines 51-68): per capability, create the issue
(with the native-link attempt and fallback inside), register, sleep, then
expand deliverables when `shouldCreateSubIssues` and the list is
non-empty. -/
def capLoop (o : Oracle) (initiative : Initiative) (initiativeNumber : Nat) :
    List Capability → GenSt → List Event × GenSt × Except String (List GitHubIssue)
  | [], s => ([], s, .ok [])
  | c :: rest, s =>
    let (evs₁, s₁, r₁) := createCapabilityIssue o s initiative c initiativeNumber
    match r₁ with
    | .error e => (evs₁, s₁, .error e)
    | .ok issue =>
      let s₂ := { s₁ with
        capabilityIdToIssueNumber := (c.id, issue.number) :: s₁.capabilityIdToIssueNumber }
      let evs₂ := [Event.register .capability c.id issue.number, Event.delayMs 1000]
      let (evs₃, s₃, r₃) :=
        if c.shouldCreateSubIssues && c.deliverables.length > 0 then
          delivLoop o c issue.number c.deliverables s₂
        else ([], s₂, .ok [])
      match r₃ with
      | .error e => (evs₁ ++ evs₂ ++ evs₃, s₃, .error e)
      | .ok delivIssues =>
        let (evs₄, s₄, r₄) := capLoop o initiative initiativeNumber rest s₃
        match r₄ with
        | .error e => (evs₁ ++ evs₂ ++ evs₃ ++ evs₄, s₄, .error e)
        | .ok issues => (evs₁ ++ evs₂ ++ evs₃ ++ evs₄, s₄, .ok (issue :: delivIssues ++ issues))

/-- Second/third pass of `generateIssues` (lines 48-69).  The
`initiativeIdToIssueNumber.get(...)!` non-null assertion is modelled with
`Option.getD 0`: pass 1 registered every initiative before this pass
runs. -/
def pass2 (o : Oracle) : List Initiative → GenSt → List Event × GenSt × Except String (List GitHubIssue)
  | [], s => ([], s, .ok [])
  | ini :: rest, s =>
    let initiativeNumber := (s.initiativeIdToIssueNumber.lookup ini.id).getD 0
    let (evs₁, s₁, r₁) := capLoop o ini initiativeNumber ini.capabilities s
    match r₁ with
    | .error e => (evs₁, s₁, .error e)
    | .ok issues₁ =>
      let (evs₂, s₂, r₂) := pass2 o rest s₁
      match r₂ with
      | .error e => (evs₁ ++ evs₂, s₂, .error e)
      | .ok issues₂ => (evs₁ ++ evs₂, s₂, .ok (issues₁ ++ issues₂))

/-- Attempt one native blocks link (lines 438-459 / 508-529): two node-id
lookups evaluated as the mutation's arguments, then the GraphQL call; any
of the three failing lands in the catch, which only collects the textual
reference.  Returns whether the native link succeeded. -/
def linkEdge (o : Oracle) (s : GenSt) (depNumber issueNumber : Nat) :
    List Event × GenSt × Bool :=
  let (evs₁, s₁, ok₁) := octokitGetNode o s depNumber
  if !ok₁ then (evs₁, s₁, false)
  else
    let (evs₂, s₂, ok₂) := octokitGetNode o s₁ issueNumber
    if !ok₂ then (evs₁ ++ evs₂, s₂, false)
    else
      let (evs₃, s₃, ok₃) := octokitGraphql o s₂ depNumber issueNumber
      (evs₁ ++ evs₂ ++ evs₃, s₃, ok₃)

/-- The per-dependency loop (lines 434-465 / 504-535): a dependency id
absent from the map is skipped with no call at all; a resolvable one gets
a native-link attempt, is always added to `dependencyReferences`, and is
added to `linkedDependencies` only when the native link succeeded. -/
def depsFold (o : Oracle) (idMap : List (String × Nat)) (issueNumber : Nat) :
    List String → GenSt → List Event × GenSt × List String × List Nat
  | [], s => ([], s, [], [])
  | depId :: rest, s =>
    match idMap.lookup depId with
    | none => depsFold o idMap issueNumber rest s
    | some depNumber =>
      let (evs₁, s₁, linked) := linkEdge o s depNumber issueNumber
      let (evs₂, s₂, refs, linkedL) := depsFold o idMap issueNumber rest s₁
      (evs₁ ++ evs₂, s₂, ("#" ++ toString depNumber) :: refs,
       if linked then depNumber :: linkedL else linkedL)

/-- The dependency comment body: the wording differs by whether any native
link succeeded; both forms list every resolvable reference. -/
def dependencyCommentBody (noun : String) (anyLinked : Bool) (refs : List String) : String :=
  if anyLinked then
    "**Dependencies** (also linked as \x27blocks\x27 relationships): " ++ ", ".intercalate refs
  else
    "**Dependencies**: This " ++ noun ++ " depends on " ++ ", ".intercalate refs

/-- The per-item body of `updateCapabilityDependencies` /
`updateDeliverableDependencies` (lines 426-480 / 496-551): skip items with
no declared dependencies or whose own handle is unresolved; otherwise run
the per-dependency loop, and post one comment (followed by a 1000 ms
sleep) only when some reference resolved.  The `createComment` call is not
wrapped in a `try`, so its failure propagates.  `idMap` is the relevant
id-to-issue-number map, read from the generator instance (no call in this
phase modifies the maps). -/
def depsCommentStep (o : Oracle) (idMap : List (String × Nat)) (noun : String)
    (entityId : String) (deps : List String) (s : GenSt) :
    List Event × GenSt × Except String Unit :=
  if deps.length > 0 then
    match idMap.lookup entityId with
    | none => ([], s, .ok ())
    | some issueNumber =>
      let (evs₁, s₁, refs, linked) := depsFold o idMap issueNumber deps s
      if refs.length > 0 then
        let commentBody := dependencyCommentBody noun (linked.length > 0) refs
        let (evs₂, s₂, r₂) := octokitComment o s₁ issueNumber commentBody
        match r₂ with
        | .error e => (evs₁ ++ evs₂, s₂, .error e)
        | .ok () => (evs₁ ++ evs₂ ++ [Event.delayMs 1000], s₂, .ok ())
      else (evs₁, s₁, .ok ())
  else ([], s, .ok ())

/-- `updateCapabilityDependencies` outer loops, flattened over all
capabilities of all initiatives (the initiative itself is unused in the
loop body). -/
def capDepsLoop (o : Oracle) : List Capability → GenSt → List Event × GenSt × Except String Unit
  | [], s => ([], s, .ok ())
  | c :: rest, s =>
    let (evs₁, s₁, r₁) :=
      depsCommentStep o s.capabilityIdToIssueNumber "capability" c.id c.dependencies s
    match r₁ with
    | .error e => (evs₁, s₁, .error e)
    | .ok () =>
      let (evs₂, s₂, r₂) := capDepsLoop o rest s₁
      (evs₁ ++ evs₂, s₂, r₂)

def updateCapabilityDependencies (o : Oracle) (project : ProjectStructure) (s : GenSt) :
    List Event × GenSt × Except String Unit :=
  capDepsLoop o (project.initiatives.map (·.capabilities)).flatten s

/-- Inner deliverable loop of `updateDeliverableDependencies`. -/
def delDepsInner (o : Oracle) : List Deliverable → GenSt → List Event × GenSt × Except String Unit
  | [], s => ([], s, .ok ())
  | d :: rest, s =>
    let (evs₁, s₁, r₁) :=
      depsCommentStep o s.deliverableIdToIssueNumber "deliverable" d.id d.dependencies s
    match r₁ with
    | .error e => (evs₁, s₁, .error e)
    | .ok () =>
      let (evs₂, s₂, r₂) := delDepsInner o rest s₁
      (evs₁ ++ evs₂, s₂, r₂)

/-- `updateDeliverableDependencies` capability loop: capabilities with
`shouldCreateSubIssues` false are skipped entirely (line 493). -/
def delDepsLoop (o : Oracle) : List Capability → GenSt → List Event × GenSt × Except String Unit
  | [], s => ([], s, .ok ())
  | c :: rest, s =>
    if !c.shouldCreateSubIssues then delDepsLoop o rest s
    else
      let (evs₁, s₁, r₁) := delDepsInner o c.deliverables s
      match r₁ with
      | .error e => (evs₁, s₁, .error e)
      | .ok () =>
        let (evs₂, s₂, r₂) := delDepsLoop o rest s₁
        (evs₁ ++ evs₂, s₂, r₂)

def updateDeliverableDependencies (o : Oracle) (project : ProjectStructure) (s : GenSt) :
    List Event × GenSt × Except String Unit :=
  delDepsLoop o (project.initiatives.map (·.capabilities)).flatten s

/-- The state of a fresh `IssueGenerator` against a tracker that will
assign issue numbers starting at `startIssue`. -/
def initialSt (startIssue : Nat) : GenSt :=
  { callIdx := 0, nextIssue := startIssue,
    initiativeIdToIssueNumber := [], capabilityIdToIssueNumber := [],
    deliverableIdToIssueNumber := [], repoLabels := [], issues := [] }

/-- `IssueGenerator.generateIssues` (lines 30-85): the four passes in
order; the returned list is `allIssues` in push order. -/
def generateIssues (o : Oracle) (startIssue : Nat) (project : ProjectStructure) :
    List Event × GenSt × Except String (List GitHubIssue) :=
  let s₀ := initialSt startIssue
  let (evs₁, s₁, r₁) := pass1 o project.initiatives s₀
  match r₁ with
  | .error e => (evs₁, s₁, .error e)
  | .ok issues₁ =>
    let (evs₂, s₂, r₂) := pass2 o project.initiatives s₁
    match r₂ with
    | .error e => (evs₁ ++ evs₂, s₂, .error e)
    | .ok issues₂ =>
      let (evs₃, s₃, r₃) := updateCapabilityDependencies o project s₂
      match r₃ with
      | .error e => (evs₁ ++ evs₂ ++ evs₃, s₃, .error e)
      | .ok () =>
        let (evs₄, s₄, r₄) := updateDeliverableDependencies o project s₃
        match r₄ with
        | .error e => (evs₁ ++ evs₂ ++ evs₃ ++ evs₄, s₄, .error e)
        | .ok () => (evs₁ ++ evs₂ ++ evs₃ ++ evs₄, s₄, .ok (issues₁ ++ issues₂))

/-! ### Trace predicates -/

/-- The environment in which every remote call succeeds. -/
def noFail : Oracle :=
  { fails := fun _ => false, errMsg := fun _ => "" }

def exceptOk : Except ε α → Bool
  | .ok _ => true
  | .error _ => false

/-- A successful item-creation call. -/
def Event.isCreateOk : Event → Bool
  | .createIssue _ _ _ _ ok => ok
  | _ => false

/-- Number of external items created in a trace. -/
def createCount (tr : List Event) : Nat :=
  (tr.filter Event.isCreateOk).length

/-- The parent level of each hierarchy level (initiative-level items have
no parent; the value for `.initiative` is immaterial). -/
def parentKind : IKind → IKind
  | .initiative => .initiative
  | .capability => .initiative
  | .deliverable => .capability

/-- Scan a trace left to right, accumulating the `(kind, symbolic id)`
pairs registered so far, and check that every creation call for a child
happens strictly after its parent's registration. -/
def orderedAux (reg : List (IKind × String)) : List Event → Bool
  | [] => true
  | .createIssue k _ (some p) _ _ :: rest =>
    decide ((parentKind k, p) ∈ reg) && orderedAux reg rest
  | .register k id _ :: rest => orderedAux ((k, id) :: reg) rest
  | _ :: rest => orderedAux reg rest

def parentOrdered (tr : List Event) : Bool :=
  orderedAux [] tr

/-- The registrations a trace adds to an accumulator (matches the scanning
order of `orderedAux`). -/
def collectReg (reg : List (IKind × String)) : List Event → List (IKind × String)
  | [] => reg
  | .register k id _ :: rest => collectReg ((k, id) :: reg) rest
  | _ :: rest => collectReg reg rest

def Event.isDelay : Event → Bool
  | .delayMs _ => true
  | _ => false

def Event.isRegister : Event → Bool
  | .register _ _ _ => true
  | _ => false

/-- Claim C9's discipline, as a scan: `pending` records that an external
call has happened with no delay since; it fails as soon as a second
external call occurs while pending. -/
def delayDiscAux (important : Event → Bool) : Bool → List Event → Bool
  | _, [] => true
  | pending, e :: rest =>
    if e.isDelay then delayDiscAux important false rest
    else if important e then
      if pending then false else delayDiscAux important true rest
    else delayDiscAux important pending rest

/-- Every external call is followed by a delay before the next external
call (the claim-C9 reading). -/
def everyCallDelayed (tr : List Event) : Bool :=
  delayDiscAux Event.isExternal false tr

/-- An item-creation or comment call (the calls the code actually follows
with a `delay(1000)`). -/
def Event.isItemOrComment : Event → Bool
  | .createIssue _ _ _ _ _ => true
  | .comment _ _ _ => true
  | _ => false

/-- Between any two item-creation/comment calls there is at least one
delay. -/
def itemCommentDelayed (tr : List Event) : Bool :=
  delayDiscAux Event.isItemOrComment false tr

/-- The `pending` flag after scanning a trace (for composing
`delayDiscAux` over appends). -/
def pendAfter (important : Event → Bool) : Bool → List Event → Bool
  | p, [] => p
  | p, e :: rest =>
    pendAfter important (if e.isDelay then false else important e || p) rest

/-- All delays in the trace are the fixed 1000 ms. -/
def delaysFixed (tr : List Event) : Bool :=
  tr.all fun e =>
    match e with
    | .delayMs ms => ms = 1000
    | _ => true

/-- An item-creation call (successful or not). -/
def Event.isCreate : Event → Bool
  | .createIssue _ _ _ _ _ => true
  | _ => false

/-- A successful native blocks-link call. -/
def Event.isGraphqlOk : Event → Bool
  | .graphqlLink _ _ true => true
  | _ => false

/-- A comment call (successful or not). -/
def Event.isComment : Event → Bool
  | .comment _ _ _ => true
  | _ => false

/-- A body-update call. -/
def Event.isUpdateBody : Event → Bool
  | .updateBody _ _ => true
  | _ => false

/-! ### Concrete instances

Concrete entities used to evaluate the embedding at specific inputs,
mirroring `tests/fixtures/minimal-project-structure.ts` (one initiative,
one capability, one deliverable). -/

def minimalDeliverable : Deliverable :=
  { id := "deliverable-1-1-1", capabilityId := "capability-1-1",
    title := "Test Deliverable", description := "Deliverable to test links",
    completionCriteria := ["Deliverable is created as sub-issue of capability"],
    dependencies := [], requiresReviewGate := false }

def minimalCapability : Capability :=
  { id := "capability-1-1", initiativeId := "initiative-1",
    title := "Test Capability", description := "Capability to test links",
    inputOutputContract := "N/A - Test fixture",
    acceptanceCriteria := ["Capability is created as sub-issue of initiative"],
    edgeConstraints := [], priority := 1, complexity := "small",
    estimatedHours := 1, dependencies := [], aiContext := "", labels := [],
    shouldCreateSubIssues := true, deliverables := [minimalDeliverable], tasks := [] }

def minimalInitiative : Initiative :=
  { id := "initiative-1", title := "Test Initiative",
    description := "Parent initiative for testing links",
    objective := "Verify parent-child relationships",
    successMetrics := ["Capability issues are linked as sub-issues"],
    priority := 1, capabilities := [minimalCapability] }

def minimalProjectStructure : ProjectStructure :=
  { title := "Test Sub-Issue Relationships",
    description := "Minimal structure to test links",
    techStack := {}, initiatives := [minimalInitiative] }

/-- A capability that violates the exactly-one-of invariant:
`shouldCreateSubIssues` is true but `deliverables` is empty. -/
def violatingCapability : Capability :=
  { id := "capability-1-2", initiativeId := "initiative-1",
    title := "Flagged but childless", description := "Expands but has no deliverables",
    inputOutputContract := "", acceptanceCriteria := [], edgeConstraints := [],
    priority := 1, complexity := "medium", estimatedHours := 6,
    dependencies := [], aiContext := "", labels := [],
    shouldCreateSubIssues := true, deliverables := [], tasks := [] }

def summaryA : InitiativeSummary :=
  { id := "initiative-1", title := "First", description := "first summary",
    objective := "obj one", successMetrics := [], priority := 1 }

def summaryB : InitiativeSummary :=
  { id := "initiative-2", title := "Second", description := "second summary",
    objective := "obj two", successMetrics := [], priority := 2 }

def overviewAB : ProjectOverview :=
  { title := "Two initiatives", description := "overview fixture",
    techStack := {}, initiatives := [summaryA, summaryB] }

/-- A per-initiative generation that fails on the first summary and
succeeds on the second. -/
def genFailFirst : InitiativeSummary → Except String (List Capability) :=
  fun s => if s.id = "initiative-1" then .error "Claude API error: boom"
           else .ok [minimalCapability]

/-- A per-initiative generation that succeeds on the first summary and
fails on the second. -/
def genFailSecond : InitiativeSummary → Except String (List Capability) :=
  fun s => if s.id = "initiative-2" then .error "Claude API error: boom"
           else .ok [minimalCapability]

/-- Oracle failing exactly the native sub-issue call of
`createCapabilityIssue` run from a fresh state (call 1), leaving the
fallback calls to succeed. -/
def oracleSubFails : Oracle :=
  { fails := fun i => i = 1, errMsg := fun _ => "sub-issues unavailable" }

/-- Oracle failing the native sub-issue call (call 1) and then fallback
step 2, the `addLabels` call (call 3). -/
def oracleSubAndLabelFail : Oracle :=
  { fails := fun i => i = 1 || i = 3, errMsg := fun _ => "addLabels transport error" }

/-- Oracle failing the very first call of a run. -/
def oracleFirstFails : Oracle :=
  { fails := fun i => i = 0, errMsg := fun _ => "HTTP 500" }

/-- A resolver map for exercising dependency linking: the dependent
capability resolves to issue 10, one dependency resolves to issue 12, and
any other id is unresolved. -/
def capDepsMapW : List (String × Nat) :=
  [("capability-1-1", 10), ("capability-1-3", 12)]

/-- A PRD body of more than 100 characters with an H1 title and an
Overview section. -/
def samplePRD : String :=
  "# Demo Project\n\n## Overview\n\nA small but sufficiently long requirements document used to exercise the PRD processor validation path."

/-! ## Theorems -/

/-- C6 (counterexample): a capability with `shouldCreateSubIssues = true`
and an empty deliverables list passes `CapabilitySchema` validation, so
the exactly-one-of invariant is *not* rejected at validation. -/
theorem C6_counterexample :
    CapabilitySchema violatingCapability = true ∧
    violatingCapability.shouldCreateSubIssues = true ∧
    violatingCapability.deliverables = [] :=
  ⟨by decide, rfl, rfl⟩

/-- C6 (amended): structural validation never relates
`shouldCreateSubIssues` to the deliverables list — acceptance by
`CapabilitySchema` is unchanged under flipping the flag, so structures
violating the exactly-one-of invariant are accepted rather than rejected. -/
theorem C6_flag_ignored (c : Capability) (b : Bool) :
    CapabilitySchema { c with shouldCreateSubIssues := b } = CapabilitySchema c :=
  rfl

/-- C7: when the backend signals `stop_reason = 'max_tokens'`,
single-pass `decompose` fails with the truncation-specific error — whose
text names the `--two-phase` staged-mode remedy — for *every* possible
parse/validate behaviour (so truncation is detected before any parsing or
validation of the content), and never returns a hierarchy. -/
theorem C7_truncation_error (parseValidate : String → Except String ProjectStructure)
    (maxTokens : Nat) (resp : AIResponse) (h : resp.stopReason = "max_tokens") :
    decompose parseValidate maxTokens resp = .error (truncationMessage maxTokens) ∧
    truncationMessage maxTokens = truncMsgPre maxTokens ++ "--two-phase" ++ truncMsgPost :=
  ⟨by simp [decompose, h], rfl⟩

/-- Witness for C7: a truncated response with well-formed content is still
rejected even when parsing would succeed. -/
theorem C7_truncation_error_witness :
    (AIResponse.mk "max_tokens" (.text "content")).stopReason = "max_tokens" ∧
    decompose (fun _ => .ok minimalProjectStructure) 8000
        (AIResponse.mk "max_tokens" (.text "content")) =
      .error (truncationMessage 8000) :=
  ⟨rfl,
   (C7_truncation_error (fun _ => .ok minimalProjectStructure) 8000
     (AIResponse.mk "max_tokens" (.text "content")) rfl).1⟩

/-- C3 (counterexample): `AIDecomposer.decomposeTwoPhase` aborts the whole
staged run on a single initiative's failure — with two summaries of which
only the second fails, the method returns the error instead of a hierarchy
built from the first. -/
theorem C3_counterexample :
    decomposeTwoPhase (.ok overviewAB) genFailSecond = .error "Claude API error: boom" := by
  rfl

/-- C3 (amended): in the CLI create command's two-phase path, each
per-initiative capability generation is attempted independently — every
summary is processed, successes are attached to their initiative, failures
are recorded as `(summary, error)` pairs, and a failure never aborts the
loop. -/
theorem C3_cli_loop_resilient (gen : InitiativeSummary → Except String (List Capability))
    (summaries : List InitiativeSummary) :
    (cliPhase2Loop gen summaries).1
      = summaries.filterMap (fun s =>
          match gen s with
          | .ok caps => some (attachCapabilities s caps)
          | .error _ => none) ∧
    (cliPhase2Loop gen summaries).2
      = summaries.filterMap (fun s =>
          match gen s with
          | .error e => some (s, e)
          | .ok _ => none) ∧
    (cliPhase2Loop gen summaries).1.length + (cliPhase2Loop gen summaries).2.length
      = summaries.length := by
  induction summaries with
  | nil => exact ⟨rfl, rfl, rfl⟩
  | cons s rest ih =>
    obtain ⟨ih₁, ih₂, ih₃⟩ := ih
    rcases hg : gen s with e | caps <;>
      simp [cliPhase2Loop, hg, ih₁, ih₂, ← ih₃] <;> omega

/-- C4: the post-phase-2 snapshot policy of `handleCreateCommand`: all
initiatives failed ⟹ the run fails and the `.p2g-failure.json` diagnostic
snapshot (timestamp, PRD file reference, overview, failure records with
id/title/error) is written; some but not all failed ⟹ the run returns the
hierarchy built from the successes and writes the `.p2g-partial.json`
snapshot (same failure shape plus the usable hierarchy); none failed ⟹ no
snapshot is written. -/
theorem C4_snapshot_policy (timestamp prdFile : String) (overview : ProjectOverview)
    (gen : InitiativeSummary → Except String (List Capability))
    (inits : List Initiative) (fails : List (InitiativeSummary × String))
    (h : cliPhase2Loop gen overview.initiatives = (inits, fails)) :
    (inits = [] →
      cliTwoPhase timestamp prdFile overview gen =
        (.error "All initiatives failed to generate capabilities",
         [(".p2g-failure.json",
           .allFailed timestamp prdFile overview (toFailureRecords fails))])) ∧
    (inits ≠ [] → fails ≠ [] →
      cliTwoPhase timestamp prdFile overview gen =
        (.ok { title := overview.title, description := overview.description,
               techStack := overview.techStack, initiatives := inits },
         [(".p2g-partial.json",
           .someFailed timestamp prdFile
             { title := overview.title, description := overview.description,
               techStack := overview.techStack, initiatives := inits }
             (toFailureRecords fails))])) ∧
    (inits ≠ [] → fails = [] →
      cliTwoPhase timestamp prdFile overview gen =
        (.ok { title := overview.title, description := overview.description,
               techStack := overview.techStack, initiatives := inits }, [])) := by
  refine ⟨fun h0 => ?_, fun h0 h1 => ?_, fun h0 h1 => ?_⟩
  · simp [cliTwoPhase, h, postPhase2, h0]
  · simp [cliTwoPhase, h, postPhase2, h0, h1]
  · simp [cliTwoPhase, h, postPhase2, h0, h1]

/-- Witness for C4: with two summaries of which exactly the second fails,
the run returns the one-initiative hierarchy and writes the
partial-success snapshot. -/
theorem C4_snapshot_policy_witness :
    cliPhase2Loop genFailSecond overviewAB.initiatives =
      ([attachCapabilities summaryA [minimalCapability]],
       [(summaryB, "Claude API error: boom")]) ∧
    cliTwoPhase "2026-01-01T00:00:00Z" "doc.md" overviewAB genFailSecond =
      (.ok { title := overviewAB.title, description := overviewAB.description,
             techStack := overviewAB.techStack,
             initiatives := [attachCapabilities summaryA [minimalCapability]] },
       [(".p2g-partial.json",
         .someFailed "2026-01-01T00:00:00Z" "doc.md"
           { title := overviewAB.title, description := overviewAB.description,
             techStack := overviewAB.techStack,
             initiatives := [attachCapabilities summaryA [minimalCapability]] }
           (toFailureRecords [(summaryB, "Claude API error: boom")]))]) :=
  ⟨by decide,
   (C4_snapshot_policy "2026-01-01T00:00:00Z" "doc.md" overviewAB genFailSecond
     [attachCapabilities summaryA [minimalCapability]]
     [(summaryB, "Claude API error: boom")] (by decide)).2.1
     (by decide) (by decide)⟩

/-- C10: `processPRD` rejects with a `PRDProcessorError` precisely the
missing, unreadable, empty/whitespace-only (trim-empty), shorter-than-100
and longer-than-100000 inputs; every accepted input yields metadata whose
`rawContent` is the file content unchanged, whose title is the extracted
title with `'Untitled Project'` substituted when extraction finds none (or
the falsy empty string), and likewise `'No description provided'` for the
description. -/
theorem C10_processPRD (prdPath : String) (file : PRDFile) :
    (file = .missing →
      processPRD prdPath file = .error ("PRD file not found: " ++ prdPath)) ∧
    (∀ msg, file = .unreadable msg →
      processPRD prdPath file = .error ("Failed to read PRD file: " ++ msg)) ∧
    (∀ content, file = .readable content →
      (exceptOk (processPRD prdPath file) = true ↔
        jsTrim content ≠ "" ∧ 100 ≤ content.length ∧ content.length ≤ 100000)) ∧
    (∀ content md, file = .readable content → processPRD prdPath file = .ok md →
      md.rawContent = content ∧
      md.title = orFalsy "Untitled Project" (extractTitle content) ∧
      md.description = orFalsy "No description provided" (extractDescription content) ∧
      (extractTitle content = none → md.title = "Untitled Project") ∧
      (extractDescription content = none → md.description = "No description provided")) := by
  refine ⟨fun h => by subst h; rfl, fun msg h => by subst h; rfl,
    fun content h => ?_, fun content md h hok => ?_⟩
  · subst h
    by_cases h1 : jsTrim content = ""
    · simp [processPRD, h1, exceptOk]
    · by_cases h2 : content.length < 100
      · simp [processPRD, h1, h2, exceptOk]
      · by_cases h3 : content.length > 100000
        · simp [processPRD, h1, h2, h3, exceptOk]
        · simp [processPRD, h1, h2, h3, exceptOk]
          omega
  · subst h
    simp only [processPRD] at hok
    by_cases h1 : jsTrim content = "" <;> simp [h1] at hok
    by_cases h2 : content.length < 100 <;> simp [h2] at hok
    by_cases h3 : content.length > 100000 <;> simp [h3] at hok
    subst hok
    refine ⟨rfl, rfl, rfl, fun ht => ?_, fun hd => ?_⟩
    · simp [extractMetadata, ht, orFalsy]
    · simp [extractMetadata, hd, orFalsy]

set_option maxRecDepth 8000 in
/-- Witness for C10: a concrete well-formed PRD is accepted, keeps its raw
content, and gets its H1 title extracted. -/
theorem C10_processPRD_witness :
    processPRD "prd.md" (.readable samplePRD) = .ok (extractMetadata samplePRD) ∧
    (extractMetadata samplePRD).rawContent = samplePRD ∧
    (extractMetadata samplePRD).title = "Demo Project" := by
  have hacc : processPRD "prd.md" (.readable samplePRD) = .ok (extractMetadata samplePRD) := by
    have h1 : ¬(jsTrim samplePRD = "") := by decide
    have h2 : ¬(samplePRD.length < 100) := by decide
    have h3 : ¬(samplePRD.length > 100000) := by decide
    simp [processPRD, h1, h2, h3]
  refine ⟨hacc,
    ((C10_processPRD "prd.md" (.readable samplePRD)).2.2.2 samplePRD
        (extractMetadata samplePRD) rfl hacc).1, ?_⟩
  show orFalsy "Untitled Project" (extractTitle samplePRD) = "Demo Project"
  decide

/-- C2 (counterexample): when the native sub-issue call fails and then
fallback step 2 (`addLabels`) fails, the run aborts with an
`IssueGeneratorError` and fallback step 3 (the body update) is never
attempted — so the individual fallback steps are not best-effort and a
step failure does abort the run. -/
theorem C2_counterexample :
    (createCapabilityIssue oracleSubAndLabelFail (initialSt 2)
        minimalInitiative minimalCapability 1).1 =
      [.createIssue .capability "capability-1-1" (some "initiative-1") 2 true,
       .subIssue 1 2 false,
       .createLabel "parent:#1" true,
       .addLabels 2 ["parent:#1"] false] ∧
    (createCapabilityIssue oracleSubAndLabelFail (initialSt 2)
        minimalInitiative minimalCapability 1).2.2 =
      .error "Failed to create capability issue \"Test Capability\": addLabels transport error" := by
  decide

/-- C2 (amended): if the native sub-issue call fails, the three-step
fallback starts unconditionally and in order, and step 1 (ensuring the
parent label) is best-effort — the conclusion holds whatever the outcome
of the `createLabel` call.  But steps 2 and 3 are not individually
guarded: a failure of `addLabels` or of the body update aborts the child's
creation with an `IssueGeneratorError` naming it.  When steps 2 and 3
succeed, the child ends up carrying the `parent:#<n>` label and a body
starting with the parent-reference section. -/
theorem C2_fallback (o : Oracle) (s : GenSt) (ini : Initiative) (cap : Capability) (n : Nat)
    (hc : o.fails s.callIdx = false) (hs : o.fails (s.callIdx + 1) = true) :
    ((createCapabilityIssue o s ini cap n).1.take 3 =
      [.createIssue .capability cap.id (some ini.id) s.nextIssue true,
       .subIssue n s.nextIssue false,
       .createLabel (parentLabelName n) (!(o.fails (s.callIdx + 2)))]) ∧
    (o.fails (s.callIdx + 3) = false → o.fails (s.callIdx + 4) = false →
      ∃ iss : GitHubIssue,
        (createCapabilityIssue o s ini cap n).2.2 = .ok iss ∧
        (createCapabilityIssue o s ini cap n).2.1.issues.lookup iss.number =
          some { title := "[CAPABILITY] " ++ cap.title,
                 body := parentLinkSection n ini.title ++ formatCapabilityBody ini cap n,
                 labels := jsSetDedup (["type:capability", ini.id, cap.complexity] ++ cap.labels)
                           ++ [parentLabelName n] }) ∧
    (o.fails (s.callIdx + 3) = true →
      (createCapabilityIssue o s ini cap n).2.2 =
        .error ("Failed to create capability issue \"" ++ cap.title ++ "\": "
          ++ o.errMsg (s.callIdx + 3))) ∧
    (o.fails (s.callIdx + 3) = false → o.fails (s.callIdx + 4) = true →
      (createCapabilityIssue o s ini cap n).2.2 =
        .error ("Failed to create capability issue \"" ++ cap.title ++ "\": "
          ++ o.errMsg (s.callIdx + 4))) := by
  refine ⟨?_, fun h3 h4 => ?_, fun h3 => ?_, fun h3 h4 => ?_⟩
  · rcases h2 : o.fails (s.callIdx + 2) with _ | _ <;>
    rcases h3 : o.fails (s.callIdx + 3) with _ | _ <;>
    rcases h4 : o.fails (s.callIdx + 4) with _ | _ <;>
      simp [createCapabilityIssue, octokitCreate, octokitSubIssue, applyParentFallback,
        createParentLabel, octokitCreateLabel, octokitAddLabels, octokitUpdateBody,
        hc, hs, h2, h3, h4, Nat.add_assoc]
  · refine ⟨⟨s.nextIssue, "[CAPABILITY] " ++ cap.title, formatCapabilityBody ini cap n⟩, ?_, ?_⟩ <;>
      rcases h2 : o.fails (s.callIdx + 2) with _ | _ <;>
        simp [createCapabilityIssue, octokitCreate, octokitSubIssue, applyParentFallback,
          createParentLabel, octokitCreateLabel, octokitAddLabels, octokitUpdateBody,
          hc, hs, h2, h3, h4, Nat.add_assoc, List.lookup]
  · rcases h2 : o.fails (s.callIdx + 2) with _ | _ <;>
      simp [createCapabilityIssue, octokitCreate, octokitSubIssue, applyParentFallback,
        createParentLabel, octokitCreateLabel, octokitAddLabels, octokitUpdateBody,
        hc, hs, h2, h3, Nat.add_assoc]
  · rcases h2 : o.fails (s.callIdx + 2) with _ | _ <;>
      simp [createCapabilityIssue, octokitCreate, octokitSubIssue, applyParentFallback,
        createParentLabel, octokitCreateLabel, octokitAddLabels, octokitUpdateBody,
        hc, hs, h2, h3, h4, Nat.add_assoc]

/-- Witness for C2 (amended): concrete run in which only the native
sub-issue call fails — the fallback succeeds and the child ends with the
parent label and parent-reference body. -/
theorem C2_fallback_witness :
    oracleSubFails.fails (initialSt 2).callIdx = false ∧
    oracleSubFails.fails ((initialSt 2).callIdx + 1) = true ∧
    ∃ iss : GitHubIssue,
      (createCapabilityIssue oracleSubFails (initialSt 2)
          minimalInitiative minimalCapability 1).2.2 = .ok iss ∧
      (createCapabilityIssue oracleSubFails (initialSt 2)
          minimalInitiative minimalCapability 1).2.1.issues.lookup iss.number =
        some { title := "[CAPABILITY] " ++ minimalCapability.title,
               body := parentLinkSection 1 minimalInitiative.title
                 ++ formatCapabilityBody minimalInitiative minimalCapability 1,
               labels := jsSetDedup (["type:capability", minimalInitiative.id,
                   minimalCapability.complexity] ++ minimalCapability.labels)
                 ++ [parentLabelName 1] } :=
  ⟨rfl, rfl,
   (C2_fallback oracleSubFails (initialSt 2) minimalInitiative minimalCapability 1
     rfl rfl).2.1 rfl rfl⟩

/-- Pass-1 failure propagation: each initiative consumes exactly one
external call, so if the first `pre.length` creates succeed and the next
fails, pass 1 fails with the `IssueGeneratorError` message wrapping that
initiative's title and the underlying transport message. -/
theorem pass1_error_at (o : Oracle) (ini : Initiative) (post : List Initiative) :
    ∀ (pre : List Initiative) (s : GenSt),
      (∀ j, j < pre.length → o.fails (s.callIdx + j) = false) →
      o.fails (s.callIdx + pre.length) = true →
      (pass1 o (pre ++ ini :: post) s).2.2 =
        .error ("Failed to create initiative issue \"" ++ ini.title ++ "\": "
          ++ o.errMsg (s.callIdx + pre.length)) := by
  intro pre
  induction pre with
  | nil =>
    intro s hok hf
    simp only [List.length_nil, Nat.add_zero] at hf
    simp [pass1, createInitiativeIssue, octokitCreate, hf]
  | cons p pre ih =>
    intro s hok hf
    have h0 : o.fails s.callIdx = false := by simpa using hok 0 (by simp)
    have hok' : ∀ j, j < pre.length →
        o.fails (s.callIdx + 1 + j) = false := by
      intro j hj
      have := hok (j + 1) (by simpa using Nat.succ_lt_succ hj)
      simpa [Nat.add_assoc, Nat.add_comm 1 j] using this
    have hf' : o.fails (s.callIdx + 1 + pre.length) = true := by
      have e : s.callIdx + 1 + pre.length = s.callIdx + (p :: pre).length := by
        simp; omega
      rw [e]; exact hf
    have hrec := ih
      { s with
        callIdx := s.callIdx + 1
        nextIssue := s.nextIssue + 1
        initiativeIdToIssueNumber := (p.id, s.nextIssue) :: s.initiativeIdToIssueNumber
        issues := (s.nextIssue,
          ⟨"[INITIATIVE] " ++ p.title, formatInitiativeBody p, ["type:initiative", p.id]⟩)
          :: s.issues }
      (by simpa using hok') (by simpa using hf')
    have e : s.callIdx + 1 + pre.length = s.callIdx + (p :: pre).length := by
      simp; omega
    rw [e] at hrec
    simp only [List.cons_append, pass1, createInitiativeIssue, octokitCreate, h0,
      Bool.false_eq_true, if_false]
    rcases hp : pass1 o (pre ++ ini :: post)
      { s with
        callIdx := s.callIdx + 1
        nextIssue := s.nextIssue + 1
        initiativeIdToIssueNumber := (p.id, s.nextIssue) :: s.initiativeIdToIssueNumber
        issues := (s.nextIssue,
          ⟨"[INITIATIVE] " ++ p.title, formatInitiativeBody p, ["type:initiative", p.id]⟩)
          :: s.issues }
      with ⟨evs₃, st₃, r₃⟩
    rw [hp] at hrec
    simp only at hrec
    simp [hp, hrec]

/-- C8: if the external creation call for any initiative-level item fails,
the whole `generateIssues` run fails, and the raised error carries the
initiative's title together with the underlying transport error message. -/
theorem C8_initiative_failure_fatal (o : Oracle) (startIssue : Nat)
    (proj : ProjectStructure) (pre : List Initiative) (ini : Initiative)
    (post : List Initiative)
    (hsplit : proj.initiatives = pre ++ ini :: post)
    (hok : ∀ j, j < pre.length → o.fails j = false)
    (hf : o.fails pre.length = true) :
    (generateIssues o startIssue proj).2.2 =
      .error ("Failed to create initiative issue \"" ++ ini.title ++ "\": "
        ++ o.errMsg pre.length) := by
  have h := pass1_error_at o ini post pre (initialSt startIssue)
    (by simpa [initialSt] using hok) (by simpa [initialSt] using hf)
  rcases hp : pass1 o (pre ++ ini :: post) (initialSt startIssue) with ⟨evs, st, r⟩
  rw [hp] at h
  simp only at h
  simp only [initialSt] at h
  simp only [Nat.zero_add] at h
  simp only [generateIssues, hsplit]
  rw [hp]
  simp [h]

/-- Witness for C8: the very first create call failing aborts the whole
run with the wrapped message. -/
theorem C8_initiative_failure_fatal_witness :
    minimalProjectStructure.initiatives = [] ++ minimalInitiative :: [] ∧
    oracleFirstFails.fails 0 = true ∧
    (generateIssues oracleFirstFails 1 minimalProjectStructure).2.2 =
      .error ("Failed to create initiative issue \"" ++ minimalInitiative.title ++ "\": "
        ++ oracleFirstFails.errMsg 0) :=
  ⟨rfl, rfl,
   C8_initiative_failure_fatal oracleFirstFails 1 minimalProjectStructure
     [] minimalInitiative [] rfl (fun j hj => absurd hj (Nat.not_lt_zero j)) rfl⟩

/-- An event that is neither an item creation nor a comment is in
particular not a comment. -/
theorem isComment_false_of_not_item (e : Event)
    (h : Event.isItemOrComment e = false) : Event.isComment e = false := by
  cases e <;> simp_all [Event.isComment, Event.isItemOrComment]

/-- An event that is neither an item creation nor a comment is in
particular not a creation. -/
theorem isCreate_false_of_not_item (e : Event)
    (h : Event.isItemOrComment e = false) : Event.isCreate e = false := by
  cases e <;> simp_all [Event.isCreate, Event.isItemOrComment]

/-! ### Trace-scan algebra -/

theorem delayDiscAux_append (imp : Event → Bool) :
    ∀ (a b : List Event) (p : Bool),
      delayDiscAux imp p (a ++ b) =
        (delayDiscAux imp p a && delayDiscAux imp (pendAfter imp p a) b) := by
  intro a
  induction a with
  | nil => intro b p; simp [delayDiscAux, pendAfter]
  | cons e a ih =>
    intro b p
    by_cases hd : e.isDelay <;> by_cases hi : imp e <;> by_cases hp : p <;>
      simp [delayDiscAux, pendAfter, hd, hi, hp, ih]

theorem pendAfter_append (imp : Event → Bool) :
    ∀ (a b : List Event) (p : Bool),
      pendAfter imp p (a ++ b) = pendAfter imp (pendAfter imp p a) b := by
  intro a
  induction a with
  | nil => intro b p; simp [pendAfter]
  | cons e a ih => intro b p; simp [pendAfter, ih]

theorem delaysFixed_append (a b : List Event) :
    delaysFixed (a ++ b) = (delaysFixed a && delaysFixed b) := by
  simp [delaysFixed, List.all_append]

theorem createCount_append (a b : List Event) :
    createCount (a ++ b) = createCount a + createCount b := by
  simp [createCount, List.filter_append]

theorem collectReg_append :
    ∀ (a b : List Event) (reg : List (IKind × String)),
      collectReg reg (a ++ b) = collectReg (collectReg reg a) b := by
  intro a
  induction a with
  | nil => intro b reg; simp [collectReg]
  | cons e a ih =>
    intro b reg
    cases e <;> simp [collectReg, ih]

theorem orderedAux_append :
    ∀ (a b : List Event) (reg : List (IKind × String)),
      orderedAux reg (a ++ b) =
        (orderedAux reg a && orderedAux (collectReg reg a) b) := by
  intro a
  induction a with
  | nil => intro b reg; simp [orderedAux, collectReg]
  | cons e a ih =>
    intro b reg
    cases e with
    | createIssue k id par num ok =>
      cases par with
      | none => simp [orderedAux, collectReg, ih]
      | some p => simp [orderedAux, collectReg, ih, Bool.and_assoc]
    | register k id num => simp [orderedAux, collectReg, ih]
    | subIssue a b c => simp [orderedAux, collectReg, ih]
    | createLabel a b => simp [orderedAux, collectReg, ih]
    | addLabels a b c => simp [orderedAux, collectReg, ih]
    | updateBody a b => simp [orderedAux, collectReg, ih]
    | getNode a b => simp [orderedAux, collectReg, ih]
    | graphqlLink a b c => simp [orderedAux, collectReg, ih]
    | comment a b c => simp [orderedAux, collectReg, ih]
    | delayMs ms => simp [orderedAux, collectReg, ih]

theorem collectReg_extends :
    ∀ (evs : List Event) (reg : List (IKind × String)),
      reg ⊆ collectReg reg evs := by
  intro evs
  induction evs with
  | nil => intro reg; simp [collectReg]
  | cons e evs ih =>
    intro reg
    cases e <;> simp only [collectReg] <;>
      first
      | exact ih reg
      | exact List.Subset.trans (List.subset_cons_self _ reg) (ih _)

theorem orderedAux_mono :
    ∀ (evs : List Event) (reg reg' : List (IKind × String)),
      reg ⊆ reg' → orderedAux reg evs = true → orderedAux reg' evs = true := by
  intro evs
  induction evs with
  | nil => intro reg reg' _ _; rfl
  | cons e evs ih =>
    intro reg reg' hsub h
    cases e with
    | createIssue k id par num ok =>
      cases par with
      | none =>
        simp only [orderedAux] at h ⊢
        exact ih reg reg' hsub h
      | some p =>
        simp only [orderedAux, Bool.and_eq_true, decide_eq_true_eq] at h ⊢
        exact ⟨hsub h.1, ih reg reg' hsub h.2⟩
    | register k id num =>
      simp only [orderedAux] at h ⊢
      exact ih _ _ (List.cons_subset_cons _ hsub) h
    | subIssue a b c => exact ih reg reg' hsub h
    | createLabel a b => exact ih reg reg' hsub h
    | addLabels a b c => exact ih reg reg' hsub h
    | updateBody a b => exact ih reg reg' hsub h
    | getNode a b => exact ih reg reg' hsub h
    | graphqlLink a b c => exact ih reg reg' hsub h
    | comment a b c => exact ih reg reg' hsub h
    | delayMs ms => exact ih reg reg' hsub h

theorem scan_of_neutral (imp : Event → Bool) :
    ∀ (evs : List Event) (p : Bool),
      (∀ e ∈ evs, imp e = false ∧ Event.isDelay e = false) →
      delayDiscAux imp p evs = true ∧ pendAfter imp p evs = p := by
  intro evs
  induction evs with
  | nil => intro p _; exact ⟨rfl, rfl⟩
  | cons e evs ih =>
    intro p h
    obtain ⟨h1, h2⟩ := h e (List.mem_cons_self e evs)
    have hrest := ih p fun x hx => h x (List.mem_cons_of_mem e hx)
    simp [delayDiscAux, pendAfter, h1, h2, ih p fun x hx => h x (List.mem_cons_of_mem e hx)]

theorem collectReg_of_no_register :
    ∀ (evs : List Event) (reg : List (IKind × String)),
      (∀ e ∈ evs, Event.isRegister e = false) → collectReg reg evs = reg := by
  intro evs
  induction evs with
  | nil => intro reg _; rfl
  | cons e evs ih =>
    intro reg h
    have h1 := h e (List.mem_cons_self e evs)
    have hrest := fun x hx => h x (List.mem_cons_of_mem e hx)
    cases e <;>
      first
      | (simp [Event.isRegister] at h1; done)
      | simpa [collectReg] using ih _ hrest

theorem orderedAux_of_no_create :
    ∀ (evs : List Event) (reg : List (IKind × String)),
      (∀ e ∈ evs, Event.isCreate e = false) → orderedAux reg evs = true := by
  intro evs
  induction evs with
  | nil => intro reg _; rfl
  | cons e evs ih =>
    intro reg h
    have h1 := h e (List.mem_cons_self e evs)
    have hrest := fun x hx => h x (List.mem_cons_of_mem e hx)
    cases e <;>
      first
      | (simp [Event.isCreate] at h1; done)
      | simpa [orderedAux] using ih _ hrest

theorem createCount_of_no_create :
    ∀ (evs : List Event),
      (∀ e ∈ evs, Event.isCreate e = false) → createCount evs = 0 := by
  intro evs h
  simp only [createCount, List.length_eq_zero, List.filter_eq_nil_iff]
  intro e he
  have h1 := h e he
  cases e <;>
    first
    | (simp [Event.isCreate] at h1; done)
    | simp [Event.isCreateOk]

/-- Shape of one native-link attempt: its calls are neither comments nor
item creations nor delays, it always begins with the node lookup of the
dependency, every GraphQL event in it links the dependency as blocker of
the dependent, and it reports success exactly when the successful mutation
event is in its trace. -/
theorem linkEdge_spec (o : Oracle) (s : GenSt) (dep n : Nat) :
    (∀ e ∈ (linkEdge o s dep n).1, Event.isItemOrComment e = false ∧
        Event.isDelay e = false ∧ Event.isRegister e = false) ∧
    (∃ ok, Event.getNode dep ok ∈ (linkEdge o s dep n).1) ∧
    (∀ a bl ok, Event.graphqlLink a bl ok ∈ (linkEdge o s dep n).1 → a = dep ∧ bl = n) ∧
    ((linkEdge o s dep n).2.2 = true ↔
        Event.graphqlLink dep n true ∈ (linkEdge o s dep n).1) := by
  rcases h1 : o.fails s.callIdx with _ | _ <;>
  rcases h2 : o.fails (s.callIdx + 1) with _ | _ <;>
  rcases h3 : o.fails (s.callIdx + 2) with _ | _ <;>
    simp [linkEdge, octokitGetNode, octokitGraphql, h1, h2, h3,
      Event.isItemOrComment, Event.isDelay, Event.isRegister]

/-- Characterisation of the per-dependency loop: the collected references
are exactly the resolvable dependencies rendered as `#<number>`; the
emitted events contain no comment, creation or delay; each resolvable
dependency gets a link attempt; every GraphQL event links a resolvable
dependency as blocker of the dependent; the `linkedDependencies` list is
non-empty iff some native link succeeded; and with no resolvable
dependency nothing at all is emitted. -/
theorem depsFold_spec (o : Oracle) (idMap : List (String × Nat)) (n : Nat) :
    ∀ (deps : List String) (s : GenSt),
      (depsFold o idMap n deps s).2.2.1 =
        (deps.filterMap fun d => idMap.lookup d).map (fun m => "#" ++ toString m) ∧
      (∀ e ∈ (depsFold o idMap n deps s).1, Event.isItemOrComment e = false ∧
          Event.isDelay e = false ∧ Event.isRegister e = false) ∧
      (∀ m ∈ deps.filterMap fun d => idMap.lookup d,
          ∃ ok, Event.getNode m ok ∈ (depsFold o idMap n deps s).1) ∧
      (∀ a bl ok, Event.graphqlLink a bl ok ∈ (depsFold o idMap n deps s).1 →
          (a ∈ deps.filterMap fun d => idMap.lookup d) ∧ bl = n) ∧
      ((depsFold o idMap n deps s).2.2.2 ≠ [] ↔
          ∃ a bl, Event.graphqlLink a bl true ∈ (depsFold o idMap n deps s).1) ∧
      ((deps.filterMap fun d => idMap.lookup d) = [] →
          (depsFold o idMap n deps s).1 = []) := by
  intro deps
  induction deps with
  | nil => intro s; simp [depsFold]
  | cons depId rest ih =>
    intro s
    rcases hl : idMap.lookup depId with _ | depNumber
    · simpa [depsFold, hl] using ih s
    · obtain ⟨ihrefs, ihneutral, ihget, ihgql, ihlinked, ihempty⟩ :=
        ih (linkEdge o s depNumber n).2.1
      obtain ⟨lneutral, lget, lgql, llinked⟩ := linkEdge_spec o s depNumber n
      simp only [depsFold, hl]
      rcases hle : linkEdge o s depNumber n with ⟨evs₁, s₁, linked⟩
      rcases hdf : depsFold o idMap n rest s₁ with ⟨evs₂, s₂, refs, linkedL⟩
      rw [hle] at lneutral lget lgql llinked
      rw [hle, hdf] at ihrefs ihneutral ihget ihgql ihlinked ihempty
      simp only at lneutral lget lgql llinked ihrefs ihneutral ihget ihgql ihlinked ihempty ⊢
      refine ⟨by simp [hl, ihrefs], ?_, ?_, ?_, ?_, ?_⟩
      · intro e he
        rcases List.mem_append.mp he with h | h
        · exact lneutral e h
        · exact ihneutral e h
      · intro m hm
        simp only [List.filterMap_cons, hl] at hm
        rcases List.mem_cons.mp hm with h | h
        · subst h
          obtain ⟨ok, hok⟩ := lget
          exact ⟨ok, List.mem_append.mpr (Or.inl hok)⟩
        · obtain ⟨ok, hok⟩ := ihget m h
          exact ⟨ok, List.mem_append.mpr (Or.inr hok)⟩
      · intro a bl ok hmem
        simp only [List.filterMap_cons, hl]
        rcases List.mem_append.mp hmem with h | h
        · obtain ⟨ha, hbl⟩ := lgql a bl ok h
          exact ⟨List.mem_cons.mpr (Or.inl ha), hbl⟩
        · obtain ⟨ha, hbl⟩ := ihgql a bl ok h
          exact ⟨List.mem_cons.mpr (Or.inr ha), hbl⟩
      · constructor
        · intro hne
          rcases hlk : linked with _ | _
          · rw [hlk] at hne
            simp only [Bool.false_eq_true, if_false] at hne
            obtain ⟨a, bl, hm⟩ := ihlinked.mp hne
            exact ⟨a, bl, List.mem_append.mpr (Or.inr hm)⟩
          · refine ⟨depNumber, n, List.mem_append.mpr (Or.inl ?_)⟩
            exact llinked.mp hlk
        · intro ⟨a, bl, hm⟩
          rcases List.mem_append.mp hm with h | h
          · obtain ⟨ha, hbl⟩ := lgql a bl true h
            subst ha; subst hbl
            have : linked = true := llinked.mpr h
            simp [this]
          · have : linkedL ≠ [] := ihlinked.mpr ⟨a, bl, h⟩
            rcases linked <;> simp [this]
      · intro habs
        simp [List.filterMap_cons, hl] at habs

/-- C5: during dependency linking, for every dependent entity (capability
or deliverable — `idMap` and `noun` are instantiated per kind by
`updateCapabilityDependencies` / `updateDeliverableDependencies`): a
dependent whose own handle is unresolved, or with no declared
dependencies, is skipped with no call and no error; dependency ids absent
from the map are dropped silently (if none resolves, nothing is emitted,
in particular no comment); and otherwise, on success, the trace is the
native-link attempts for exactly the resolvable dependencies followed by
exactly one comment on the dependent listing exactly the resolvable
references — worded by whether any native link succeeded — and the
rate-limit delay. -/
theorem C5_dependency_linking (o : Oracle) (idMap : List (String × Nat)) (noun : String)
    (entityId : String) (deps : List String) (s : GenSt) :
    (idMap.lookup entityId = none ∨ deps = [] →
      depsCommentStep o idMap noun entityId deps s = ([], s, .ok ())) ∧
    (∀ n, idMap.lookup entityId = some n →
      (deps.filterMap fun d => idMap.lookup d) = [] →
      (∀ e ∈ (depsCommentStep o idMap noun entityId deps s).1, Event.isComment e = false) ∧
      (depsCommentStep o idMap noun entityId deps s).2.2 = .ok ()) ∧
    (∀ n, idMap.lookup entityId = some n →
      (deps.filterMap fun d => idMap.lookup d) ≠ [] →
      exceptOk (depsCommentStep o idMap noun entityId deps s).2.2 = true →
      ∃ evsL b,
        (depsCommentStep o idMap noun entityId deps s).1 =
          evsL ++ [Event.comment n (dependencyCommentBody noun b
            ((deps.filterMap fun d => idMap.lookup d).map fun m => "#" ++ toString m)) true,
            Event.delayMs 1000] ∧
        (∀ e ∈ evsL, Event.isComment e = false) ∧
        (b = true ↔ ∃ a bl, Event.graphqlLink a bl true ∈ evsL) ∧
        (∀ m ∈ deps.filterMap fun d => idMap.lookup d, ∃ ok, Event.getNode m ok ∈ evsL) ∧
        (∀ a bl ok, Event.graphqlLink a bl ok ∈ evsL →
          (a ∈ deps.filterMap fun d => idMap.lookup d) ∧ bl = n)) := by
  refine ⟨?_, ?_, ?_⟩
  · rintro (h | h)
    · by_cases hd : deps.length > 0
      · simp [depsCommentStep, hd, h]
      · simp [depsCommentStep, hd]
    · simp [depsCommentStep, h]
  · intro n hn hres
    obtain ⟨frefs, fneutral, fget, fgql, flinked, fempty⟩ := depsFold_spec o idMap n deps s
    by_cases hd : deps.length > 0
    · have hevs := fempty hres
      rcases hdf : depsFold o idMap n deps s with ⟨evs₁, s₁, refs, linkedL⟩
      rw [hdf] at frefs hevs
      simp only at frefs hevs
      subst hevs
      rw [hres] at frefs
      simp only [List.map_nil] at frefs
      simp [depsCommentStep, hd, hn, hdf, frefs]
    · simp [depsCommentStep, hd]
  · intro n hn hres hok
    obtain ⟨frefs, fneutral, fget, fgql, flinked, fempty⟩ := depsFold_spec o idMap n deps s
    have hd : deps.length > 0 := by
      rcases deps with _ | ⟨d, ds⟩
      · simp at hres
      · simp
    rcases hdf : depsFold o idMap n deps s with ⟨evs₁, s₁, refs, linkedL⟩
    rw [hdf] at frefs fneutral fget fgql flinked
    simp only at frefs fneutral fget fgql flinked
    have hrefs : refs.length > 0 := by
      rw [frefs]
      simpa [List.length_pos] using hres
    rcases hc : o.fails s₁.callIdx with _ | _
    · refine ⟨evs₁, decide (0 < linkedL.length), ?_, ?_, ?_, ?_, ?_⟩
      · have hpos : 0 < (List.map (fun m => "#" ++ toString m)
            (List.filterMap (fun d => List.lookup d idMap) deps)).length := by
          simpa using List.length_pos.mpr hres
        have hpos2 : 0 < (List.filterMap (fun d => List.lookup d idMap) deps).length :=
          List.length_pos.mpr hres
        simp [depsCommentStep, hd, hn, hdf, hrefs, octokitComment, hc, frefs, hpos, hpos2]
      · intro e he
        exact isComment_false_of_not_item e (fneutral e he).1
      · simp only [decide_eq_true_eq]
        rw [← flinked]
        constructor
        · intro hpos
          exact List.ne_nil_of_length_pos hpos
        · intro hne
          exact List.length_pos.mpr hne
      · exact fget
      · exact fgql
    · exfalso
      have : exceptOk (depsCommentStep o idMap noun entityId deps s).2.2 = false := by
        simp [depsCommentStep, hd, hn, hdf, hrefs, octokitComment, hc, exceptOk]
      rw [hok] at this
      exact Bool.noConfusion this

/-- Witness for C5: a dependent with one unresolvable and one resolvable
dependency gets link attempts and one comment listing only the resolvable
reference. -/
theorem C5_dependency_linking_witness :
    List.lookup "capability-1-1" capDepsMapW = some 10 ∧
    (["capability-9-9", "capability-1-3"].filterMap
      fun d => List.lookup d capDepsMapW) ≠ [] ∧
    exceptOk (depsCommentStep noFail capDepsMapW "capability" "capability-1-1"
      ["capability-9-9", "capability-1-3"] (initialSt 1)).2.2 = true ∧
    ∃ evsL b,
      (depsCommentStep noFail capDepsMapW "capability" "capability-1-1"
          ["capability-9-9", "capability-1-3"] (initialSt 1)).1 =
        evsL ++ [Event.comment 10 (dependencyCommentBody "capability" b
          ((["capability-9-9", "capability-1-3"].filterMap
            fun d => List.lookup d capDepsMapW).map fun m => "#" ++ toString m)) true,
          Event.delayMs 1000] ∧
      (∀ e ∈ evsL, Event.isComment e = false) ∧
      (b = true ↔ ∃ a bl, Event.graphqlLink a bl true ∈ evsL) ∧
      (∀ m ∈ ["capability-9-9", "capability-1-3"].filterMap
          (fun d => List.lookup d capDepsMapW), ∃ ok, Event.getNode m ok ∈ evsL) ∧
      (∀ a bl ok, Event.graphqlLink a bl ok ∈ evsL →
        (a ∈ ["capability-9-9", "capability-1-3"].filterMap
          fun d => List.lookup d capDepsMapW) ∧ bl = 10) :=
  ⟨by decide, by decide, by decide,
   (C5_dependency_linking noFail capDepsMapW "capability" "capability-1-1"
     ["capability-9-9", "capability-1-3"] (initialSt 1)).2.2 10
     (by decide) (by decide) (by decide)⟩

/-- Shape of one initiative creation: delay discipline holds and leaves a
pending creation, no delays are emitted, nothing is registered, creations
carry no parent, and on success exactly one item is created. -/
theorem createInitiativeIssue_shape (o : Oracle) (s : GenSt) (ini : Initiative) :
    delayDiscAux Event.isItemOrComment false (createInitiativeIssue o s ini).1 = true ∧
    pendAfter Event.isItemOrComment false (createInitiativeIssue o s ini).1 = true ∧
    delaysFixed (createInitiativeIssue o s ini).1 = true ∧
    (∀ e ∈ (createInitiativeIssue o s ini).1, e.isRegister = false) ∧
    (∀ reg, orderedAux reg (createInitiativeIssue o s ini).1 = true) ∧
    (∀ iss, (createInitiativeIssue o s ini).2.2 = .ok iss →
      createCount (createInitiativeIssue o s ini).1 = 1) := by
  rcases h : o.fails s.callIdx with _ | _ <;>
    simp [createInitiativeIssue, octokitCreate, h, delayDiscAux, pendAfter, delaysFixed,
      Event.isRegister, Event.isItemOrComment, Event.isDelay, orderedAux, createCount,
      Event.isCreateOk]

/-- Shape of one capability creation (including the native-link attempt
and fallback): delay discipline holds, leaving a pending creation; no
delays are emitted; nothing is registered; the only creation call carries
the owning initiative as parent, so the segment is ordered whenever the
initiative is registered; on success exactly one item is created. -/
theorem createCapabilityIssue_shape (o : Oracle) (s : GenSt) (ini : Initiative)
    (cap : Capability) (n : Nat) :
    delayDiscAux Event.isItemOrComment false (createCapabilityIssue o s ini cap n).1 = true ∧
    pendAfter Event.isItemOrComment false (createCapabilityIssue o s ini cap n).1 = true ∧
    delaysFixed (createCapabilityIssue o s ini cap n).1 = true ∧
    (∀ e ∈ (createCapabilityIssue o s ini cap n).1, e.isRegister = false) ∧
    (∀ reg, (IKind.initiative, ini.id) ∈ reg →
      orderedAux reg (createCapabilityIssue o s ini cap n).1 = true) ∧
    (∀ iss, (createCapabilityIssue o s ini cap n).2.2 = .ok iss →
      createCount (createCapabilityIssue o s ini cap n).1 = 1) := by
  rcases h0 : o.fails s.callIdx with _ | _ <;>
  rcases h1 : o.fails (s.callIdx + 1) with _ | _ <;>
  rcases h2 : o.fails (s.callIdx + 2) with _ | _ <;>
  rcases h3 : o.fails (s.callIdx + 3) with _ | _ <;>
  rcases h4 : o.fails (s.callIdx + 4) with _ | _ <;>
    simp [createCapabilityIssue, octokitCreate, octokitSubIssue, applyParentFallback,
      createParentLabel, octokitCreateLabel, octokitAddLabels, octokitUpdateBody,
      h0, h1, h2, h3, h4, Nat.add_assoc, delayDiscAux, pendAfter, delaysFixed,
      Event.isRegister, Event.isItemOrComment, Event.isDelay, orderedAux, createCount,
      Event.isCreateOk, parentKind]

/-- Shape of one deliverable creation, as for capabilities but with the
owning capability as parent. -/
theorem createDeliverableIssue_shape (o : Oracle) (s : GenSt) (cap : Capability)
    (d : Deliverable) (n : Nat) :
    delayDiscAux Event.isItemOrComment false (createDeliverableIssue o s cap d n).1 = true ∧
    pendAfter Event.isItemOrComment false (createDeliverableIssue o s cap d n).1 = true ∧
    delaysFixed (createDeliverableIssue o s cap d n).1 = true ∧
    (∀ e ∈ (createDeliverableIssue o s cap d n).1, e.isRegister = false) ∧
    (∀ reg, (IKind.capability, cap.id) ∈ reg →
      orderedAux reg (createDeliverableIssue o s cap d n).1 = true) ∧
    (∀ iss, (createDeliverableIssue o s cap d n).2.2 = .ok iss →
      createCount (createDeliverableIssue o s cap d n).1 = 1) := by
  rcases h0 : o.fails s.callIdx with _ | _ <;>
  rcases h1 : o.fails (s.callIdx + 1) with _ | _ <;>
  rcases h2 : o.fails (s.callIdx + 2) with _ | _ <;>
  rcases h3 : o.fails (s.callIdx + 3) with _ | _ <;>
  rcases h4 : o.fails (s.callIdx + 4) with _ | _ <;>
    simp [createDeliverableIssue, octokitCreate, octokitSubIssue, applyParentFallback,
      createParentLabel, octokitCreateLabel, octokitAddLabels, octokitUpdateBody,
      h0, h1, h2, h3, h4, Nat.add_assoc, delayDiscAux, pendAfter, delaysFixed,
      Event.isRegister, Event.isItemOrComment, Event.isDelay, orderedAux, createCount,
      Event.isCreateOk, parentKind]

/-- Shape of the deliverable loop: delay discipline holds; all delays are
1000 ms; on success the pending flag is clear and exactly one item per
deliverable was created; and the segment is ordered whenever the owning
capability is registered. -/
theorem delivLoop_shape (o : Oracle) (cap : Capability) (capN : Nat) :
    ∀ (ds : List Deliverable) (s : GenSt),
      delayDiscAux Event.isItemOrComment false (delivLoop o cap capN ds s).1 = true ∧
      delaysFixed (delivLoop o cap capN ds s).1 = true ∧
      (∀ l, (delivLoop o cap capN ds s).2.2 = .ok l →
        pendAfter Event.isItemOrComment false (delivLoop o cap capN ds s).1 = false ∧
        createCount (delivLoop o cap capN ds s).1 = ds.length) ∧
      (∀ reg, (IKind.capability, cap.id) ∈ reg →
        orderedAux reg (delivLoop o cap capN ds s).1 = true) := by
  intro ds
  induction ds with
  | nil =>
    intro s
    simp [delivLoop, delayDiscAux, pendAfter, delaysFixed, createCount, orderedAux]
  | cons d rest ih =>
    intro s
    obtain ⟨c1, c2, c3, c4, c5, c6⟩ := createDeliverableIssue_shape o s cap d capN
    rcases hc : createDeliverableIssue o s cap d capN with ⟨evs₁, s₁, r₁⟩
    rw [hc] at c1 c2 c3 c4 c5 c6
    simp only at c1 c2 c3 c4 c5 c6
    rcases r₁ with e | iss
    · simp only [delivLoop, hc]
      exact ⟨c1, c3, by simp, fun reg hm => c5 reg hm⟩
    · obtain ⟨i1, i2, i3, i4⟩ := ih
        { s₁ with deliverableIdToIssueNumber := (d.id, iss.number) :: s₁.deliverableIdToIssueNumber }
      rcases hrec : delivLoop o cap capN rest
          { s₁ with deliverableIdToIssueNumber := (d.id, iss.number) :: s₁.deliverableIdToIssueNumber }
        with ⟨evs₃, s₃, r₃⟩
      rw [hrec] at i1 i2 i3 i4
      simp only at i1 i2 i3 i4
      have hcollect : collectReg ([] : List (IKind × String)) evs₁ = [] :=
        collectReg_of_no_register evs₁ [] c4
      refine ⟨?_, ?_, ?_, ?_⟩
      · simp only [delivLoop, hc, hrec]
        rcases r₃ with e₃ | l₃ <;>
          simp [delayDiscAux_append, pendAfter_append, c1, c2, i1,
            delayDiscAux, pendAfter, Event.isDelay, Event.isItemOrComment, Event.isRegister]
      · simp only [delivLoop, hc, hrec]
        simp only [delaysFixed] at c3 i2
        rcases r₃ with e₃ | l₃ <;> simp [delaysFixed, c3, i2]
      · intro l hl
        simp only [delivLoop, hc, hrec] at hl ⊢
        rcases r₃ with e₃ | l₃
        · simp at hl
        · obtain ⟨ip, icnt⟩ := i3 l₃ rfl
          constructor
          · simp [pendAfter_append, c2, ip, pendAfter, Event.isDelay,
              Event.isItemOrComment, Event.isRegister]
          · have hone := c6 iss rfl
            simp [createCount, Event.isCreateOk] at hone icnt ⊢
            omega
      · intro reg hm
        simp only [delivLoop, hc, hrec]
        have hord₁ := c5 reg hm
        have hcoll : collectReg reg evs₁ = reg := collectReg_of_no_register evs₁ reg c4
        have hsub : reg ⊆ (IKind.deliverable, d.id) :: reg := List.subset_cons_self _ _
        have hord₃ := i4 ((IKind.deliverable, d.id) :: reg) (hsub hm)
        rcases r₃ with e₃ | l₃ <;>
          simp [orderedAux_append, collectReg_append, hord₁, hcoll, hord₃,
            orderedAux, collectReg]

/-- Shape of the capability loop (passes 2 and 3 interleaved): delay
discipline; fixed delays; on success a clear pending flag and one created
item per capability plus one per deliverable of each expanding capability;
ordered whenever the owning initiative is registered. -/
theorem capLoop_shape (o : Oracle) (ini : Initiative) (iniN : Nat) :
    ∀ (caps : List Capability) (s : GenSt),
      delayDiscAux Event.isItemOrComment false (capLoop o ini iniN caps s).1 = true ∧
      delaysFixed (capLoop o ini iniN caps s).1 = true ∧
      (∀ l, (capLoop o ini iniN caps s).2.2 = .ok l →
        pendAfter Event.isItemOrComment false (capLoop o ini iniN caps s).1 = false ∧
        createCount (capLoop o ini iniN caps s).1 =
          (caps.map fun c => 1 +
            if c.shouldCreateSubIssues && c.deliverables.length > 0
            then c.deliverables.length else 0).sum) ∧
      (∀ reg, (IKind.initiative, ini.id) ∈ reg →
        orderedAux reg (capLoop o ini iniN caps s).1 = true) := by
  intro caps
  induction caps with
  | nil =>
    intro s
    simp [capLoop, delayDiscAux, pendAfter, delaysFixed, createCount, orderedAux]
  | cons c rest ih =>
    intro s
    obtain ⟨c1, c2, c3, c4, c5, c6⟩ := createCapabilityIssue_shape o s ini c iniN
    rcases hc : createCapabilityIssue o s ini c iniN with ⟨evs₁, s₁, r₁⟩
    rw [hc] at c1 c2 c3 c4 c5 c6
    simp only at c1 c2 c3 c4 c5 c6
    rcases r₁ with e | iss
    · simp only [capLoop, hc]
      exact ⟨c1, c3, by simp, fun reg hm => c5 reg hm⟩
    · obtain ⟨d1, d2, d3, d4⟩ := delivLoop_shape o c iss.number c.deliverables
        { s₁ with capabilityIdToIssueNumber := (c.id, iss.number) :: s₁.capabilityIdToIssueNumber }
      by_cases hcond : (c.shouldCreateSubIssues && decide (c.deliverables.length > 0)) = true
      · rcases hd : delivLoop o c iss.number c.deliverables
            { s₁ with capabilityIdToIssueNumber := (c.id, iss.number) :: s₁.capabilityIdToIssueNumber }
          with ⟨evs₃, s₃, r₃⟩
        rw [hd] at d1 d2 d3 d4
        simp only at d1 d2 d3 d4
        rcases r₃ with e₃ | l₃
        · simp only [capLoop, hc, hcond, if_true, hd]
          refine ⟨?_, ?_, by simp, ?_⟩
          · simp [delayDiscAux_append, pendAfter_append, c1, c2, d1,
              delayDiscAux, pendAfter, Event.isDelay, Event.isItemOrComment, Event.isRegister]
          · simp only [delaysFixed] at c3 d2
            simp [delaysFixed, c3, d2]
          · intro reg hm
            have hord₁ := c5 reg hm
            have hcoll : collectReg reg evs₁ = reg := collectReg_of_no_register evs₁ reg c4
            have hsub : reg ⊆ (IKind.capability, c.id) :: reg := List.subset_cons_self _ _
            have hord₃ := d4 ((IKind.capability, c.id) :: reg) (List.mem_cons_self _ _)
            simp [orderedAux_append, collectReg_append, hord₁, hcoll, hord₃,
              orderedAux, collectReg]
        · obtain ⟨i1, i2, i3, i4⟩ := ih s₃
          rcases hrec : capLoop o ini iniN rest s₃ with ⟨evs₄, s₄, r₄⟩
          rw [hrec] at i1 i2 i3 i4
          simp only at i1 i2 i3 i4
          obtain ⟨dp, dcnt⟩ := d3 l₃ rfl
          simp only [capLoop, hc, hcond, if_true, hd, hrec]
          refine ⟨?_, ?_, ?_, ?_⟩
          · rcases r₄ with e₄ | l₄ <;>
              simp [delayDiscAux_append, pendAfter_append, c1, c2, d1, dp, i1,
                delayDiscAux, pendAfter, Event.isDelay, Event.isItemOrComment, Event.isRegister]
          · simp only [delaysFixed] at c3 d2 i2
            rcases r₄ with e₄ | l₄ <;> simp [delaysFixed, c3, d2, i2]
          · intro l hl
            rcases r₄ with e₄ | l₄
            · simp at hl
            · obtain ⟨ip, icnt⟩ := i3 l₄ rfl
              have hone := c6 iss rfl
              constructor
              · simp [pendAfter_append, c2, dp, ip, pendAfter, Event.isDelay,
                  Event.isItemOrComment, Event.isRegister]
              · have hcond2 : c.shouldCreateSubIssues = true ∧ 0 < c.deliverables.length := by
                  simpa using hcond
                simp [createCount, Event.isCreateOk, hcond2] at hone dcnt icnt ⊢
                omega
          · intro reg hm
            have hord₁ := c5 reg hm
            have hcoll : collectReg reg evs₁ = reg := collectReg_of_no_register evs₁ reg c4
            have hord₃ := d4 ((IKind.capability, c.id) :: reg) (List.mem_cons_self _ _)
            have hmem₄ : (IKind.initiative, ini.id) ∈
                collectReg ((IKind.capability, c.id) :: reg) evs₃ :=
              collectReg_extends evs₃ _ (List.mem_cons_of_mem _ hm)
            have hord₄ := i4 _ hmem₄
            rcases r₄ with e₄ | l₄ <;>
              simp [orderedAux_append, collectReg_append, hord₁, hcoll, hord₃, hord₄,
                orderedAux, collectReg]
      · obtain ⟨i1, i2, i3, i4⟩ := ih
          { s₁ with capabilityIdToIssueNumber := (c.id, iss.number) :: s₁.capabilityIdToIssueNumber }
        rcases hrec : capLoop o ini iniN rest
            { s₁ with capabilityIdToIssueNumber := (c.id, iss.number) :: s₁.capabilityIdToIssueNumber }
          with ⟨evs₄, s₄, r₄⟩
        rw [hrec] at i1 i2 i3 i4
        simp only at i1 i2 i3 i4
        simp only [capLoop, hc, hcond, if_false, Bool.false_eq_true, hrec]
        refine ⟨?_, ?_, ?_, ?_⟩
        · rcases r₄ with e₄ | l₄ <;>
            simp [delayDiscAux_append, pendAfter_append, c1, c2, i1,
              delayDiscAux, pendAfter, Event.isDelay, Event.isItemOrComment, Event.isRegister]
        · simp only [delaysFixed] at c3 i2
          rcases r₄ with e₄ | l₄ <;> simp [delaysFixed, c3, i2]
        · intro l hl
          rcases r₄ with e₄ | l₄
          · simp at hl
          · obtain ⟨ip, icnt⟩ := i3 l₄ rfl
            have hone := c6 iss rfl
            constructor
            · simp [pendAfter_append, c2, ip, pendAfter, Event.isDelay,
                Event.isItemOrComment, Event.isRegister]
            · have hcond2 : ¬(c.shouldCreateSubIssues = true ∧ 0 < c.deliverables.length) := by
                simpa using hcond
              simp [createCount, Event.isCreateOk, hcond2] at hone icnt ⊢
              omega
        · intro reg hm
          have hord₁ := c5 reg hm
          have hcoll : collectReg reg evs₁ = reg := collectReg_of_no_register evs₁ reg c4
          have hmem₄ : (IKind.initiative, ini.id) ∈ (IKind.capability, c.id) :: reg :=
            List.mem_cons_of_mem _ hm
          have hord₄ := i4 _ hmem₄
          rcases r₄ with e₄ | l₄ <;>
            simp [orderedAux_append, collectReg_append, hord₁, hcoll, hord₄,
              orderedAux, collectReg]

/-- Shape of pass 1: delay discipline; fixed delays; on success a clear
pending flag, one created item per initiative, and every initiative
registered in the accumulated resolver; always ordered (initiative
creations have no parent). -/
theorem pass1_shape (o : Oracle) :
    ∀ (inits : List Initiative) (s : GenSt),
      delayDiscAux Event.isItemOrComment false (pass1 o inits s).1 = true ∧
      delaysFixed (pass1 o inits s).1 = true ∧
      (∀ l, (pass1 o inits s).2.2 = .ok l →
        pendAfter Event.isItemOrComment false (pass1 o inits s).1 = false ∧
        createCount (pass1 o inits s).1 = inits.length ∧
        (∀ reg, ∀ ini ∈ inits,
          (IKind.initiative, ini.id) ∈ collectReg reg (pass1 o inits s).1)) ∧
      (∀ reg, orderedAux reg (pass1 o inits s).1 = true) := by
  intro inits
  induction inits with
  | nil =>
    intro s
    simp [pass1, delayDiscAux, pendAfter, delaysFixed, createCount, orderedAux]
  | cons p rest ih =>
    intro s
    obtain ⟨c1, c2, c3, c4, c5, c6⟩ := createInitiativeIssue_shape o s p
    rcases hc : createInitiativeIssue o s p with ⟨evs₁, s₁, r₁⟩
    rw [hc] at c1 c2 c3 c4 c5 c6
    simp only at c1 c2 c3 c4 c5 c6
    rcases r₁ with e | iss
    · simp only [pass1, hc]
      exact ⟨c1, c3, by simp, fun reg => c5 reg⟩
    · obtain ⟨i1, i2, i3, i4⟩ := ih
        { s₁ with initiativeIdToIssueNumber := (p.id, iss.number) :: s₁.initiativeIdToIssueNumber }
      rcases hrec : pass1 o rest
          { s₁ with initiativeIdToIssueNumber := (p.id, iss.number) :: s₁.initiativeIdToIssueNumber }
        with ⟨evs₃, s₃, r₃⟩
      rw [hrec] at i1 i2 i3 i4
      simp only at i1 i2 i3 i4
      simp only [pass1, hc, hrec]
      refine ⟨?_, ?_, ?_, ?_⟩
      · rcases r₃ with e₃ | l₃ <;>
          simp [delayDiscAux_append, pendAfter_append, c1, c2, i1,
            delayDiscAux, pendAfter, Event.isDelay, Event.isItemOrComment, Event.isRegister]
      · simp only [delaysFixed] at c3 i2
        rcases r₃ with e₃ | l₃ <;> simp [delaysFixed, c3, i2]
      · intro l hl
        rcases r₃ with e₃ | l₃
        · simp at hl
        · obtain ⟨ip, icnt, icoll⟩ := i3 l₃ rfl
          have hone := c6 iss rfl
          refine ⟨?_, ?_, ?_⟩
          · simp [pendAfter_append, c2, ip, pendAfter, Event.isDelay,
              Event.isItemOrComment, Event.isRegister]
          · simp [createCount, Event.isCreateOk] at hone icnt ⊢
            omega
          · intro reg ini hini
            have hcoll : collectReg reg evs₁ = reg := collectReg_of_no_register evs₁ reg c4
            simp only [collectReg_append, hcoll, collectReg]
            rcases List.mem_cons.mp hini with h | h
            · subst h
              exact collectReg_extends evs₃ _ (List.mem_cons_self _ _)
            · exact icoll _ ini h
      · intro reg
        have hord₁ := c5 reg
        have hcoll : collectReg reg evs₁ = reg := collectReg_of_no_register evs₁ reg c4
        have hord₃ := i4 ((IKind.initiative, p.id) :: reg)
        rcases r₃ with e₃ | l₃ <;>
          simp [orderedAux_append, collectReg_append, hord₁, hcoll, hord₃,
            orderedAux, collectReg]

/-- Shape of pass 2: delay discipline; fixed delays; on success a clear
pending flag and the per-capability count sum; ordered whenever every
initiative of the list is registered. -/
theorem pass2_shape (o : Oracle) :
    ∀ (inits : List Initiative) (s : GenSt),
      delayDiscAux Event.isItemOrComment false (pass2 o inits s).1 = true ∧
      delaysFixed (pass2 o inits s).1 = true ∧
      (∀ l, (pass2 o inits s).2.2 = .ok l →
        pendAfter Event.isItemOrComment false (pass2 o inits s).1 = false ∧
        createCount (pass2 o inits s).1 =
          (inits.map fun ini => (ini.capabilities.map fun c => 1 +
            if c.shouldCreateSubIssues && c.deliverables.length > 0
            then c.deliverables.length else 0).sum).sum) ∧
      (∀ reg, (∀ ini ∈ inits, (IKind.initiative, ini.id) ∈ reg) →
        orderedAux reg (pass2 o inits s).1 = true) := by
  intro inits
  induction inits with
  | nil =>
    intro s
    simp [pass2, delayDiscAux, pendAfter, delaysFixed, createCount, orderedAux]
  | cons p rest ih =>
    intro s
    obtain ⟨c1, c2, c3, c4⟩ := capLoop_shape o p
      ((s.initiativeIdToIssueNumber.lookup p.id).getD 0) p.capabilities s
    rcases hc : capLoop o p ((s.initiativeIdToIssueNumber.lookup p.id).getD 0)
        p.capabilities s with ⟨evs₁, s₁, r₁⟩
    rw [hc] at c1 c2 c3 c4
    simp only at c1 c2 c3 c4
    rcases r₁ with e | l₁
    · simp only [pass2, hc]
      refine ⟨c1, c2, by simp, fun reg hreg => c4 reg (hreg p (List.mem_cons_self _ _))⟩
    · obtain ⟨i1, i2, i3, i4⟩ := ih s₁
      rcases hrec : pass2 o rest s₁ with ⟨evs₃, s₃, r₃⟩
      rw [hrec] at i1 i2 i3 i4
      simp only at i1 i2 i3 i4
      simp only [pass2, hc, hrec]
      obtain ⟨cp, ccnt⟩ := c3 l₁ rfl
      refine ⟨?_, ?_, ?_, ?_⟩
      · rcases r₃ with e₃ | l₃ <;>
          simp [delayDiscAux_append, pendAfter_append, c1, cp, i1]
      · simp only [delaysFixed] at c2 i2
        rcases r₃ with e₃ | l₃ <;> simp [delaysFixed, c2, i2]
      · intro l hl
        rcases r₃ with e₃ | l₃
        · simp at hl
        · obtain ⟨ip, icnt⟩ := i3 l₃ rfl
          refine ⟨?_, ?_⟩
          · simp [pendAfter_append, cp, ip]
          · simp [createCount_append, ccnt, icnt]
      · intro reg hreg
        have hord₁ := c4 reg (hreg p (List.mem_cons_self _ _))
        have hreg₃ : ∀ ini ∈ rest, (IKind.initiative, ini.id) ∈ collectReg reg evs₁ :=
          fun ini hini =>
            collectReg_extends evs₁ reg (hreg ini (List.mem_cons_of_mem _ hini))
        have hord₃ := i4 _ hreg₃
        rcases r₃ with e₃ | l₃ <;>
          simp [orderedAux_append, hord₁, hord₃]

set_option maxHeartbeats 2000000 in
/-- Shape of one dependency-comment step: delay discipline; fixed delays;
on success a clear pending flag; and the segment never creates items nor
registers handles. -/
theorem depsCommentStep_shape (o : Oracle) (idMap : List (String × Nat)) (noun : String)
    (entityId : String) (deps : List String) (s : GenSt) :
    delayDiscAux Event.isItemOrComment false
      (depsCommentStep o idMap noun entityId deps s).1 = true ∧
    delaysFixed (depsCommentStep o idMap noun entityId deps s).1 = true ∧
    ((depsCommentStep o idMap noun entityId deps s).2.2 = .ok () →
      pendAfter Event.isItemOrComment false
        (depsCommentStep o idMap noun entityId deps s).1 = false) ∧
    (∀ e ∈ (depsCommentStep o idMap noun entityId deps s).1,
      e.isRegister = false ∧ Event.isCreate e = false) := by
  by_cases hd : deps.length > 0
  · rcases hl : idMap.lookup entityId with _ | n
    · simp [depsCommentStep, hd, hl, delayDiscAux, pendAfter, delaysFixed]
    · obtain ⟨_, fneutral, _, _, _, _⟩ := depsFold_spec o idMap n deps s
      rcases hdf : depsFold o idMap n deps s with ⟨evs₁, s₁, refs, linkedL⟩
      rw [hdf] at fneutral
      simp only at fneutral
      have hneutral : ∀ e ∈ evs₁, Event.isItemOrComment e = false ∧ Event.isDelay e = false :=
        fun e he => ⟨(fneutral e he).1, (fneutral e he).2.1⟩
      obtain ⟨hdisc, hpend⟩ := scan_of_neutral Event.isItemOrComment evs₁ false hneutral
      have hnoreg : ∀ e ∈ evs₁, e.isRegister = false ∧ Event.isCreate e = false :=
        fun e he => ⟨(fneutral e he).2.2, isCreate_false_of_not_item e (fneutral e he).1⟩
      have hfix : delaysFixed evs₁ = true := by
        simp only [delaysFixed, List.all_eq_true]
        intro e he
        have := (hneutral e he).2
        cases e <;> simp_all [Event.isDelay]
      by_cases hr : refs.length > 0
      · rcases hcm : o.fails s₁.callIdx with _ | _
        · have htr : (depsCommentStep o idMap noun entityId deps s).1 =
              evs₁ ++ [Event.comment n
                (dependencyCommentBody noun (decide (linkedL.length > 0)) refs) true,
                Event.delayMs 1000] := by
            simp [depsCommentStep, hd, hl, hdf, hr, octokitComment, hcm]
          refine ⟨?_, ?_, ?_, ?_⟩
          · rw [htr, delayDiscAux_append]
            simp [hdisc, hpend, delayDiscAux, pendAfter, Event.isDelay, Event.isItemOrComment]
          · rw [htr, delaysFixed_append, hfix]
            simp [delaysFixed]
          · intro _
            rw [htr, pendAfter_append]
            simp [hpend, pendAfter, Event.isDelay, Event.isItemOrComment]
          · intro e he
            rw [htr] at he
            simp only [List.mem_append, List.mem_cons, List.not_mem_nil, or_false] at he
            rcases he with h | h | h
            · exact hnoreg e h
            · subst h; exact ⟨rfl, rfl⟩
            · subst h; exact ⟨rfl, rfl⟩
        · have htr : (depsCommentStep o idMap noun entityId deps s).1 =
              evs₁ ++ [Event.comment n
                (dependencyCommentBody noun (decide (linkedL.length > 0)) refs) false] := by
            simp [depsCommentStep, hd, hl, hdf, hr, octokitComment, hcm]
          refine ⟨?_, ?_, ?_, ?_⟩
          · rw [htr, delayDiscAux_append]
            simp [hdisc, hpend, delayDiscAux, pendAfter, Event.isDelay, Event.isItemOrComment]
          · rw [htr, delaysFixed_append, hfix]
            simp [delaysFixed]
          · intro habs
            simp [depsCommentStep, hd, hl, hdf, hr, octokitComment, hcm] at habs
          · intro e he
            rw [htr] at he
            simp only [List.mem_append, List.mem_cons, List.not_mem_nil, or_false] at he
            rcases he with h | h
            · exact hnoreg e h
            · subst h; exact ⟨rfl, rfl⟩
      · refine ⟨?_, ?_, ?_, ?_⟩
        · simp [depsCommentStep, hd, hl, hdf, hr, hdisc]
        · simp [depsCommentStep, hd, hl, hdf, hr, delaysFixed] at hfix ⊢
          exact hfix
        · intro _
          simp [depsCommentStep, hd, hl, hdf, hr, hpend]
        · intro e he
          simp [depsCommentStep, hd, hl, hdf, hr] at he
          exact hnoreg e he
  · simp [depsCommentStep, hd, delayDiscAux, pendAfter, delaysFixed]

/-- Shape of the capability-dependency loop. -/
theorem capDepsLoop_shape (o : Oracle) :
    ∀ (caps : List Capability) (s : GenSt),
      delayDiscAux Event.isItemOrComment false (capDepsLoop o caps s).1 = true ∧
      delaysFixed (capDepsLoop o caps s).1 = true ∧
      ((capDepsLoop o caps s).2.2 = .ok () →
        pendAfter Event.isItemOrComment false (capDepsLoop o caps s).1 = false) ∧
      (∀ e ∈ (capDepsLoop o caps s).1, e.isRegister = false ∧ Event.isCreate e = false) := by
  intro caps
  induction caps with
  | nil =>
    intro s
    simp [capDepsLoop, delayDiscAux, pendAfter, delaysFixed]
  | cons c rest ih =>
    intro s
    obtain ⟨c1, c2, c3, c4⟩ :=
      depsCommentStep_shape o s.capabilityIdToIssueNumber "capability" c.id c.dependencies s
    rcases hc : depsCommentStep o s.capabilityIdToIssueNumber "capability" c.id c.dependencies s
      with ⟨evs₁, s₁, r₁⟩
    rw [hc] at c1 c2 c3 c4
    simp only at c1 c2 c3 c4
    rcases r₁ with e | u
    · simp only [capDepsLoop, hc]
      exact ⟨c1, c2, by simp, c4⟩
    · obtain ⟨i1, i2, i3, i4⟩ := ih s₁
      rcases hrec : capDepsLoop o rest s₁ with ⟨evs₃, s₃, r₃⟩
      rw [hrec] at i1 i2 i3 i4
      simp only at i1 i2 i3 i4
      have hp := c3 (by cases u; rfl)
      simp only [capDepsLoop, hc, hrec]
      refine ⟨?_, ?_, ?_, ?_⟩
      · simp [delayDiscAux_append, pendAfter_append, c1, hp, i1]
      · simp only [delaysFixed] at c2 i2
        simp [delaysFixed, c2, i2]
      · intro h
        simp [pendAfter_append, hp]
        rcases r₃ with e₃ | u₃
        · simp at h
        · exact i3 (by cases u₃; rfl)
      · intro e he
        rcases List.mem_append.mp he with h | h
        · exact c4 e h
        · exact i4 e h

/-- Shape of the deliverable-dependency inner loop. -/
theorem delDepsInner_shape (o : Oracle) :
    ∀ (ds : List Deliverable) (s : GenSt),
      delayDiscAux Event.isItemOrComment false (delDepsInner o ds s).1 = true ∧
      delaysFixed (delDepsInner o ds s).1 = true ∧
      ((delDepsInner o ds s).2.2 = .ok () →
        pendAfter Event.isItemOrComment false (delDepsInner o ds s).1 = false) ∧
      (∀ e ∈ (delDepsInner o ds s).1, e.isRegister = false ∧ Event.isCreate e = false) := by
  intro ds
  induction ds with
  | nil =>
    intro s
    simp [delDepsInner, delayDiscAux, pendAfter, delaysFixed]
  | cons d rest ih =>
    intro s
    obtain ⟨c1, c2, c3, c4⟩ :=
      depsCommentStep_shape o s.deliverableIdToIssueNumber "deliverable" d.id d.dependencies s
    rcases hc : depsCommentStep o s.deliverableIdToIssueNumber "deliverable" d.id d.dependencies s
      with ⟨evs₁, s₁, r₁⟩
    rw [hc] at c1 c2 c3 c4
    simp only at c1 c2 c3 c4
    rcases r₁ with e | u
    · simp only [delDepsInner, hc]
      exact ⟨c1, c2, by simp, c4⟩
    · obtain ⟨i1, i2, i3, i4⟩ := ih s₁
      rcases hrec : delDepsInner o rest s₁ with ⟨evs₃, s₃, r₃⟩
      rw [hrec] at i1 i2 i3 i4
      simp only at i1 i2 i3 i4
      have hp := c3 (by cases u; rfl)
      simp only [delDepsInner, hc, hrec]
      refine ⟨?_, ?_, ?_, ?_⟩
      · simp [delayDiscAux_append, pendAfter_append, c1, hp, i1]
      · simp only [delaysFixed] at c2 i2
        simp [delaysFixed, c2, i2]
      · intro h
        simp [pendAfter_append, hp]
        rcases r₃ with e₃ | u₃
        · simp at h
        · exact i3 (by cases u₃; rfl)
      · intro e he
        rcases List.mem_append.mp he with h | h
        · exact c4 e h
        · exact i4 e h

/-- Shape of the deliverable-dependency outer loop. -/
theorem delDepsLoop_shape (o : Oracle) :
    ∀ (caps : List Capability) (s : GenSt),
      delayDiscAux Event.isItemOrComment false (delDepsLoop o caps s).1 = true ∧
      delaysFixed (delDepsLoop o caps s).1 = true ∧
      ((delDepsLoop o caps s).2.2 = .ok () →
        pendAfter Event.isItemOrComment false (delDepsLoop o caps s).1 = false) ∧
      (∀ e ∈ (delDepsLoop o caps s).1, e.isRegister = false ∧ Event.isCreate e = false) := by
  intro caps
  induction caps with
  | nil =>
    intro s
    simp [delDepsLoop, delayDiscAux, pendAfter, delaysFixed]
  | cons c rest ih =>
    intro s
    by_cases hskip : (!c.shouldCreateSubIssues) = true
    · simpa [delDepsLoop, hskip] using ih s
    · obtain ⟨c1, c2, c3, c4⟩ := delDepsInner_shape o c.deliverables s
      rcases hc : delDepsInner o c.deliverables s with ⟨evs₁, s₁, r₁⟩
      rw [hc] at c1 c2 c3 c4
      simp only at c1 c2 c3 c4
      rcases r₁ with e | u
      · simp only [delDepsLoop, hskip, Bool.false_eq_true, if_false, hc]
        exact ⟨c1, c2, by simp, c4⟩
      · obtain ⟨i1, i2, i3, i4⟩ := ih s₁
        rcases hrec : delDepsLoop o rest s₁ with ⟨evs₃, s₃, r₃⟩
        rw [hrec] at i1 i2 i3 i4
        simp only at i1 i2 i3 i4
        have hp := c3 (by cases u; rfl)
        simp only [delDepsLoop, hskip, Bool.false_eq_true, if_false, hc, hrec]
        refine ⟨?_, ?_, ?_, ?_⟩
        · simp [delayDiscAux_append, pendAfter_append, c1, hp, i1]
        · simp only [delaysFixed] at c2 i2
          simp [delaysFixed, c2, i2]
        · intro h
          simp [pendAfter_append, hp]
          rcases r₃ with e₃ | u₃
          · simp at h
          · exact i3 (by cases u₃; rfl)
        · intro e he
          rcases List.mem_append.mp he with h | h
          · exact c4 e h
          · exact i4 e h

set_option maxRecDepth 8000 in
/-- Counterexample to claim C9 as stated: on the minimal project in the
all-success environment the run succeeds, yet not every external call is
followed by a delay before the next external call (the initiative-level
`addSubIssue` call for the first capability begins immediately after the
capability's `create` returns, with no intervening `delayMs`). -/
theorem C9_counterexample :
    exceptOk (generateIssues noFail 1 minimalProjectStructure).2.2 = true ∧
    everyCallDelayed (generateIssues noFail 1 minimalProjectStructure).1 = false := by
  constructor
  · decide
  · decide

/-- Claim C9, amended: within one run every item-creation call and every
dependency-comment call is followed by a `delay(1000)` before the next
such call begins, and every delay in the run is the fixed 1000 ms; the
sub-issue, fallback-label, body-update, node-id and GraphQL calls are not
individually delayed. -/
theorem C9_fixed_delays (o : Oracle) (startIssue : Nat) (proj : ProjectStructure) :
    itemCommentDelayed (generateIssues o startIssue proj).1 = true ∧
    delaysFixed (generateIssues o startIssue proj).1 = true := by
  obtain ⟨p1d, p1f, p1ok, _⟩ := pass1_shape o proj.initiatives (initialSt startIssue)
  rcases h1 : pass1 o proj.initiatives (initialSt startIssue) with ⟨evs₁, s₁, r₁⟩
  rw [h1] at p1d p1f p1ok
  simp only at p1d p1f p1ok
  rcases r₁ with e | is₁
  · simp only [generateIssues, h1]
    exact ⟨p1d, p1f⟩
  · have hp1 := (p1ok is₁ rfl).1
    obtain ⟨p2d, p2f, p2ok, _⟩ := pass2_shape o proj.initiatives s₁
    rcases h2 : pass2 o proj.initiatives s₁ with ⟨evs₂, s₂, r₂⟩
    rw [h2] at p2d p2f p2ok
    simp only at p2d p2f p2ok
    rcases r₂ with e | is₂
    · simp only [generateIssues, h1, h2]
      constructor
      · simp [itemCommentDelayed, delayDiscAux_append, p1d, hp1, p2d]
      · simp [delaysFixed_append, p1f, p2f]
    · have hp2 := (p2ok is₂ rfl).1
      obtain ⟨p3d, p3f, p3ok, _⟩ :=
        capDepsLoop_shape o (proj.initiatives.map (·.capabilities)).flatten s₂
      rcases h3 : capDepsLoop o (proj.initiatives.map (·.capabilities)).flatten s₂
        with ⟨evs₃, s₃, r₃⟩
      rw [h3] at p3d p3f p3ok
      simp only at p3d p3f p3ok
      rcases r₃ with e | ⟨⟩
      · simp only [generateIssues, h1, h2, updateCapabilityDependencies, h3]
        constructor
        · simp [itemCommentDelayed, delayDiscAux_append, pendAfter_append,
            p1d, p2d, p3d, hp1, hp2]
        · simp [delaysFixed_append, p1f, p2f, p3f]
      · have hp3 := p3ok rfl
        obtain ⟨p4d, p4f, p4ok, _⟩ :=
          delDepsLoop_shape o (proj.initiatives.map (·.capabilities)).flatten s₃
        rcases h4 : delDepsLoop o (proj.initiatives.map (·.capabilities)).flatten s₃
          with ⟨evs₄, s₄, r₄⟩
        rw [h4] at p4d p4f p4ok
        simp only at p4d p4f p4ok
        rcases r₄ with e | ⟨⟩
        · simp only [generateIssues, h1, h2, updateCapabilityDependencies, h3,
            updateDeliverableDependencies, h4]
          constructor
          · simp [itemCommentDelayed, delayDiscAux_append, pendAfter_append,
              p1d, p2d, p3d, p4d, hp1, hp2, hp3]
          · simp [delaysFixed_append, p1f, p2f, p3f, p4f]
        · simp only [generateIssues, h1, h2, updateCapabilityDependencies, h3,
            updateDeliverableDependencies, h4]
          constructor
          · simp [itemCommentDelayed, delayDiscAux_append, pendAfter_append,
              p1d, p2d, p3d, p4d, hp1, hp2, hp3]
          · simp [delaysFixed_append, p1f, p2f, p3f, p4f]

/-- Sum of a constant-valued map. -/
theorem sum_map_const {α : Type} (f : α → Nat) (k : Nat) :
    ∀ l : List α, (∀ x ∈ l, f x = k) → (l.map f).sum = l.length * k := by
  intro l
  induction l with
  | nil => intro _; simp
  | cons x rest ih =>
    intro h
    have h1 := h x (List.mem_cons_self x rest)
    have h2 := ih fun y hy => h y (List.mem_cons_of_mem x hy)
    simp [h1, h2]
    ring

/-- Claim C1: on a uniform validated hierarchy (N initiatives, C
capabilities each, every capability flagged for sub-issues with D > 0
deliverables), a successful run creates exactly N + N*C + N*C*D external
items, and every child-creation call happens strictly after its
parent's issue number was registered in the resolver maps. -/
theorem C1_counts_and_order (o : Oracle) (startIssue : Nat) (proj : ProjectStructure)
    (N C D : Nat)
    (hN : proj.initiatives.length = N)
    (hC : ∀ ini ∈ proj.initiatives, ini.capabilities.length = C)
    (hD : ∀ ini ∈ proj.initiatives, ∀ c ∈ ini.capabilities,
      c.shouldCreateSubIssues = true ∧ c.deliverables.length = D)
    (hDpos : 0 < D)
    (hok : exceptOk (generateIssues o startIssue proj).2.2 = true) :
    createCount (generateIssues o startIssue proj).1 = N + N * C + N * C * D ∧
    parentOrdered (generateIssues o startIssue proj).1 = true := by
  obtain ⟨_, _, p1ok, p1ord⟩ := pass1_shape o proj.initiatives (initialSt startIssue)
  rcases h1 : pass1 o proj.initiatives (initialSt startIssue) with ⟨evs₁, s₁, r₁⟩
  rw [h1] at p1ok p1ord
  simp only at p1ok p1ord
  rcases r₁ with e | is₁
  · simp only [generateIssues, h1] at hok
    simp [exceptOk] at hok
  · obtain ⟨-, p1cnt, p1reg⟩ := p1ok is₁ rfl
    obtain ⟨_, _, p2ok, p2ord⟩ := pass2_shape o proj.initiatives s₁
    rcases h2 : pass2 o proj.initiatives s₁ with ⟨evs₂, s₂, r₂⟩
    rw [h2] at p2ok p2ord
    simp only at p2ok p2ord
    rcases r₂ with e | is₂
    · simp only [generateIssues, h1, h2] at hok
      simp [exceptOk] at hok
    · obtain ⟨-, p2cnt⟩ := p2ok is₂ rfl
      obtain ⟨_, _, _, p3n⟩ :=
        capDepsLoop_shape o (proj.initiatives.map (·.capabilities)).flatten s₂
      rcases h3 : capDepsLoop o (proj.initiatives.map (·.capabilities)).flatten s₂
        with ⟨evs₃, s₃, r₃⟩
      rw [h3] at p3n
      simp only at p3n
      rcases r₃ with e | ⟨⟩
      · simp only [generateIssues, h1, h2, updateCapabilityDependencies, h3] at hok
        simp [exceptOk] at hok
      · obtain ⟨_, _, _, p4n⟩ :=
          delDepsLoop_shape o (proj.initiatives.map (·.capabilities)).flatten s₃
        rcases h4 : delDepsLoop o (proj.initiatives.map (·.capabilities)).flatten s₃
          with ⟨evs₄, s₄, r₄⟩
        rw [h4] at p4n
        simp only at p4n
        rcases r₄ with e | ⟨⟩
        · simp only [generateIssues, h1, h2, updateCapabilityDependencies, h3,
            updateDeliverableDependencies, h4] at hok
          simp [exceptOk] at hok
        · simp only [generateIssues, h1, h2, updateCapabilityDependencies, h3,
            updateDeliverableDependencies, h4]
          have c3z : createCount evs₃ = 0 :=
            createCount_of_no_create evs₃ (fun e he => (p3n e he).2)
          have c4z : createCount evs₄ = 0 :=
            createCount_of_no_create evs₄ (fun e he => (p4n e he).2)
          have h2sum : (proj.initiatives.map fun ini => (ini.capabilities.map fun c => 1 +
              if c.shouldCreateSubIssues && c.deliverables.length > 0
              then c.deliverables.length else 0).sum).sum = N * (C * (1 + D)) := by
            rw [← hN]
            refine sum_map_const _ _ _ ?_
            intro ini hini
            show (ini.capabilities.map _).sum = C * (1 + D)
            rw [← hC ini hini]
            refine sum_map_const _ _ _ ?_
            intro c hc
            obtain ⟨hflag, hlen⟩ := hD ini hini c hc
            simp [hflag, hlen, hDpos]
          constructor
          · simp only [createCount_append, p1cnt, p2cnt, h2sum, c3z, c4z, hN]
            ring
          · have o1 : orderedAux [] evs₁ = true := p1ord []
            have o2 : orderedAux (collectReg [] evs₁) evs₂ = true :=
              p2ord (collectReg [] evs₁) (fun ini hini => p1reg [] ini hini)
            have o3 : orderedAux (collectReg (collectReg [] evs₁) evs₂) evs₃ = true :=
              orderedAux_of_no_create evs₃ _ (fun e he => (p3n e he).2)
            have o4 : orderedAux
                (collectReg (collectReg (collectReg [] evs₁) evs₂) evs₃) evs₄ = true :=
              orderedAux_of_no_create evs₄ _ (fun e he => (p4n e he).2)
            simp [parentOrdered, orderedAux_append, collectReg_append, o1, o2, o3, o4]

set_option maxRecDepth 8000 in
/-- Witness for C1 on the minimal project: one initiative, one
capability, one deliverable; three items created, parents registered
first. -/
theorem C1_counts_and_order_witness :
    createCount (generateIssues noFail 1 minimalProjectStructure).1 =
      1 + 1 * 1 + 1 * 1 * 1 ∧
    parentOrdered (generateIssues noFail 1 minimalProjectStructure).1 = true :=
  C1_counts_and_order noFail 1 minimalProjectStructure 1 1 1
    (by decide) (by decide) (by decide) (by decide) (by decide)

end P2G
